import Mathlib

set_option maxRecDepth 10000

/-!
Shallow embedding of the skillixer composition core:
  - the Composition Model (src/core/types.ts, skill.ts, pipe.ts, parallel.ts,
    fork.ts, hydrate.ts),
  - the Describer (src/compiler/describe.ts),
  - the Layout Engine and buffer renderer (src/tui/components/graph.ts),
together with theorems settling the specification claims about them.

JavaScript numbers are modelled as `Int` (all arithmetic in these functions is
integral); JS strings as `String` (all characters involved are in the BMP, so
JS `.length`/`.slice` agree with Lean character counts); JS object identity of
hydration-config objects as an explicit `ref : Nat` field.
-/

namespace Skillixer

/-! ## Composition Model (src/core/types.ts) -/

/-- Source of a skill - where it was imported from. -/
inductive SkillSource where
  | inline : SkillSource
  | strLocal (path : String) : SkillSource
  | github (owner repo path : String) : SkillSource
  | git (url path : String) : SkillSource
deriving DecidableEq, Repr

/-- A single skill definition (interface Skill). The `_tag : 'Skill'` literal
field is implicit in the Lean structure. Metadata values are opaque to the
core; we model the metadata map as an optional association list with opaque
string values. -/
structure Skill where
  name : String
  description : Option String
  instructions : String
  source : SkillSource
  metadata : Option (List (String × String))
deriving DecidableEq, Repr

/-- Hydration config (interface HydrationConfig): a JS object mapping keys to
values. `ref` models the JavaScript object identity (reference) of the config
object — two configs created by distinct object literals have distinct `ref`
even when their keys/values coincide. `keys` models `Object.keys(config)`;
values are opaque to every claim and elided. -/
structure HydrationConfig where
  ref : Nat
  keys : List String
deriving DecidableEq, Repr

/-- The composition AST (type CompositionNode), a closed tagged union.
`forkNode` carries the ForkCondition fields inline. -/
inductive CompositionNode where
  | skillNode (skill : Skill) : CompositionNode
  | pipeNode (nodes : List CompositionNode) : CompositionNode
  | parallelNode (nodes : List CompositionNode) : CompositionNode
  | forkNode (whenCond : String) (thenBranch : CompositionNode)
      (elseBranch : Option CompositionNode) : CompositionNode
  | hydrateNode (node : CompositionNode) (config : HydrationConfig) : CompositionNode
deriving Repr

/-! ## Constructors (src/core/skill.ts, pipe.ts, parallel.ts, fork.ts,
hydrate.ts). The fallible ones return `Except String` carrying the exact
`throw new Error(...)` message of the source. -/

/-- interface SkillDefinition (src/core/skill.ts). -/
structure SkillDefinition where
  name : String
  description : Option String
  instructions : String
  metadata : Option (List (String × String))
deriving DecidableEq, Repr

/-- JS `String.prototype.trim()`: strip leading and trailing whitespace. -/
def jsTrim (s : String) : String :=
  String.mk (((s.toList.dropWhile Char.isWhitespace).reverse.dropWhile
    Char.isWhitespace).reverse)

/-- skill() from src/core/skill.ts: builds a SkillNode from an inline
definition, trimming the instructions; the source performs no validation. -/
def skill (definition : SkillDefinition) : CompositionNode :=
  CompositionNode.skillNode
    { name := definition.name
      description := definition.description
      instructions := jsTrim definition.instructions
      source := SkillSource.inline
      metadata := definition.metadata }

/-- pipe() from src/core/pipe.ts. -/
def pipe (nodes : List CompositionNode) : Except String CompositionNode :=
  if nodes.length = 0 then
    Except.error "pipe() requires at least one node"
  else
    Except.ok (CompositionNode.pipeNode nodes)

/-- parallel() from src/core/parallel.ts. -/
def parallel (nodes : List CompositionNode) : Except String CompositionNode :=
  if nodes.length = 0 then
    Except.error "parallel() requires at least one node"
  else
    Except.ok (CompositionNode.parallelNode nodes)

/-- fork() from src/core/fork.ts. `thenBranch` is an Option because the
runtime check `if (!options.then)` guards a value TypeScript cannot rule out
(the spec's own test calls `branch({when:'c', then:undefined})`). An empty
`when` string is falsy in JS, hence the first check fires on it. -/
def fork (whenCond : String) (thenBranch : Option CompositionNode)
    (elseBranch : Option CompositionNode) : Except String CompositionNode :=
  if whenCond = "" then
    Except.error "fork() requires a \"when\" condition"
  else
    match thenBranch with
    | none => Except.error "fork() requires a \"then\" branch"
    | some t => Except.ok (CompositionNode.forkNode whenCond t elseBranch)

/-- hydrate() from src/core/hydrate.ts. The `if (!node)` runtime guard is
unreachable in the typed model (node is always a value); the second guard
checks `Object.keys(config).length === 0`. -/
def hydrate (node : CompositionNode) (config : HydrationConfig) :
    Except String CompositionNode :=
  if config.keys.length = 0 then
    Except.error "hydrate() requires non-empty config"
  else
    Except.ok (CompositionNode.hydrateNode node config)

/-! ## Describer (src/compiler/describe.ts) -/

/-- A recorded skill (interface SkillSummary). -/
structure SkillSummary where
  name : String
  description : Option String
  instructions : String
  hydrations : List HydrationConfig
deriving DecidableEq, Repr

/-- The four composition patterns. -/
inductive Pattern where
  | sequential | parallelP | conditional | hydrated
deriving DecidableEq, Repr

/-- `patterns.add(p)` on a JS Set preserved in insertion order. -/
def addPattern (ps : List Pattern) (p : Pattern) : List Pattern :=
  if p ∈ ps then ps else ps ++ [p]

/-- JS `existingSkill.hydrations.includes(h)`: Array.prototype.includes uses
SameValueZero, which on objects is reference identity — modelled by comparing
the `ref` fields. -/
def hydrationsInclude (hs : List HydrationConfig) (h : HydrationConfig) : Bool :=
  hs.any (fun c => c.ref == h.ref)

/-- The per-leaf hydration merge of describeNode (lines 62-67): for each
active config not already present (by identity) in the record, push it.
The membership test sees the configs pushed so far, matching the in-place
array mutation of the source. -/
def mergeHydrations (existing current : List HydrationConfig) :
    List HydrationConfig :=
  current.foldl
    (fun acc h => if hydrationsInclude acc h then acc else acc ++ [h])
    existing

/-- Replace the first record with the given name (the one `skills.find`
returns) by its updated version, in place; all other records untouched. -/
def updateFirstSkill (skills : List SkillSummary) (name : String)
    (f : SkillSummary → SkillSummary) : List SkillSummary :=
  match skills with
  | [] => []
  | s :: rest =>
    if s.name == name then f s :: rest
    else s :: updateFirstSkill rest name f

/-- Accumulator state of describeNode: the `skills` array and `patterns` set
it mutates. (The outline string that describeNode also builds is exercised by
no claim and is elided from the embedding; skill recording and pattern
recording are independent of it.) -/
structure DescState where
  skills : List SkillSummary
  patterns : List Pattern
deriving DecidableEq, Repr

mutual

/-- The skill/pattern accumulation of describeNode (src/compiler/describe.ts
lines 46-144), with the active-hydration list threaded down exactly as the
`currentHydrations` parameter is. Children are visited in source order:
pipe/parallel children left to right, fork `then` before `else`. -/
def describeNode (node : CompositionNode) (currentHydrations : List HydrationConfig)
    (st : DescState) : DescState :=
  match node with
  | CompositionNode.skillNode sk =>
    match st.skills.find? (fun s => s.name == sk.name) with
    | some _ =>
      { st with
        skills := updateFirstSkill st.skills sk.name
          (fun s => { s with hydrations := mergeHydrations s.hydrations currentHydrations }) }
    | none =>
      { st with
        skills := st.skills ++
          [{ name := sk.name
             description := sk.description
             instructions := sk.instructions
             hydrations := currentHydrations }] }
  | CompositionNode.pipeNode ns =>
    describeChildren ns currentHydrations
      { st with patterns := addPattern st.patterns Pattern.sequential }
  | CompositionNode.parallelNode ns =>
    describeChildren ns currentHydrations
      { st with patterns := addPattern st.patterns Pattern.parallelP }
  | CompositionNode.forkNode _ t e =>
    let st := { st with patterns := addPattern st.patterns Pattern.conditional }
    let st := describeNode t currentHydrations st
    match e with
    | some el => describeNode el currentHydrations st
    | none => st
  | CompositionNode.hydrateNode n config =>
    describeNode n (currentHydrations ++ [config])
      { st with patterns := addPattern st.patterns Pattern.hydrated }
termination_by structural node

/-- The `node.nodes.map(...)` loop of describeNode over a child list, left to
right. -/
def describeChildren (ns : List CompositionNode) (currentHydrations : List HydrationConfig)
    (st : DescState) : DescState :=
  match ns with
  | [] => st
  | n :: rest => describeChildren rest currentHydrations (describeNode n currentHydrations st)
termination_by structural ns

end

mutual

/-- calculateDepth (src/compiler/describe.ts lines 146-160). -/
def calculateDepth (node : CompositionNode) : Nat :=
  match node with
  | CompositionNode.skillNode _ => 1
  | CompositionNode.pipeNode ns => 1 + depthListMax ns
  | CompositionNode.parallelNode ns => 1 + depthListMax ns
  | CompositionNode.forkNode _ t e =>
    let thenDepth := calculateDepth t
    let elseDepth := match e with
      | some el => calculateDepth el
      | none => 0
    1 + max thenDepth elseDepth
  | CompositionNode.hydrateNode n _ => calculateDepth n
termination_by structural node

/-- `Math.max(...node.nodes.map(calculateDepth))`: the maximum of the
children's depths. For the non-empty child lists every Model-producible tree
has, this is the list maximum (each depth is ≥ 1 > 0); on an empty list the
JS spread gives -Infinity, outside the trees the Model can produce. -/
def depthListMax (ns : List CompositionNode) : Nat :=
  match ns with
  | [] => 0
  | n :: rest => max (calculateDepth n) (depthListMax rest)
termination_by structural ns

end

/-- Result of describeAST (interface ASTDescription); the outline string is
elided (see `describeNode`). -/
structure ASTDescription where
  skills : List SkillSummary
  maxDepth : Nat
  patterns : List Pattern
deriving DecidableEq, Repr

/-- describeAST (src/compiler/describe.ts lines 31-44). -/
def describeAST (node : CompositionNode) : ASTDescription :=
  let st := describeNode node [] { skills := [], patterns := [] }
  { skills := st.skills
    maxDepth := calculateDepth node
    patterns := st.patterns }

/-! ## Layout Engine (src/tui/components/graph.ts) -/

/-- Node dimension constants (graph.ts lines 43-46). -/
def NODE_WIDTH : Int := 24
def NODE_HEIGHT : Int := 5
def H_SPACING : Int := 4
def V_SPACING : Int := 2

/-- The five rendered node types. -/
inductive NodeType where
  | skill | pipe | parallel | fork | hydrate
deriving DecidableEq, Repr

/-- A rendered node with position and style (interface RenderedNode). -/
structure RenderedNode where
  id : String
  type : NodeType
  label : String
  x : Int
  y : Int
  width : Int
  height : Int
  color : String
  selected : Bool
  lines : List String
deriving DecidableEq, Repr

/-- One cell of a connector path. -/
structure ConnPoint where
  x : Int
  y : Int
  char : Char
  color : String
deriving DecidableEq, Repr

/-- A connection between nodes (interface RenderedConnection). -/
structure RenderedConnection where
  fromId : String
  toId : String
  points : List ConnPoint
deriving DecidableEq, Repr

/-- Graph rendering result (interface RenderedGraph). -/
structure RenderedGraph where
  nodes : List RenderedNode
  connections : List RenderedConnection
  width : Int
  height : Int
deriving DecidableEq, Repr

/-- getNodeType (graph.ts lines 55-62). -/
def getNodeType (node : CompositionNode) : NodeType :=
  match node with
  | CompositionNode.skillNode _ => NodeType.skill
  | CompositionNode.pipeNode _ => NodeType.pipe
  | CompositionNode.parallelNode _ => NodeType.parallel
  | CompositionNode.forkNode _ _ _ => NodeType.fork
  | CompositionNode.hydrateNode _ _ => NodeType.hydrate

/-- getNodeLabel (graph.ts lines 65-72); `when.slice(0, 15)` is `take 15`. -/
def getNodeLabel (node : CompositionNode) : String :=
  match node with
  | CompositionNode.skillNode sk => sk.name
  | CompositionNode.pipeNode ns => "Channel (" ++ toString ns.length ++ ")"
  | CompositionNode.parallelNode ns => "Conjure (" ++ toString ns.length ++ ")"
  | CompositionNode.forkNode w _ _ => "Divine: " ++ w.take 15 ++ "..."
  | CompositionNode.hydrateNode _ _ => "Imbue"

/-- getNodeColor (graph.ts lines 75-84) with the theme constants of
src/tui/theme.ts inlined. -/
def getNodeColor (type : NodeType) : String :=
  match type with
  | NodeType.skill => "#ff6b35"
  | NodeType.pipe => "#58a6ff"
  | NodeType.parallel => "#3fb950"
  | NodeType.fork => "#ffd700"
  | NodeType.hydrate => "#a371f7"

/-- getNodeIcon (graph.ts lines 108-117). -/
def getNodeIcon (type : NodeType) : String :=
  match type with
  | NodeType.skill => "◆"
  | NodeType.pipe => "→"
  | NodeType.parallel => "⫘"
  | NodeType.fork => "⎇"
  | NodeType.hydrate => "◈"

/-- getTypeLabel (graph.ts lines 120-129). -/
def getTypeLabel (type : NodeType) : String :=
  match type with
  | NodeType.skill => "SPELL"
  | NodeType.pipe => "CHANNEL"
  | NodeType.parallel => "CONJURE"
  | NodeType.fork => "DIVINE"
  | NodeType.hydrate => "IMBUE"

/-- JS `c.repeat(n)`; the layout only calls it with n ≥ 0 (box width is the
constant 24), and `toNat` clamps negatives. -/
def repChar (c : Char) (n : Int) : String :=
  String.mk (List.replicate n.toNat c)

/-- JS `String.prototype.padEnd(n)` with spaces. -/
def jsPadEnd (s : String) (n : Int) : String :=
  s ++ String.mk (List.replicate (n - (s.length : Int)).toNat ' ')

/-- renderNodeBox (graph.ts lines 87-105). -/
def renderNodeBox (node : RenderedNode) : List String :=
  let icon := getNodeIcon node.type
  let maxLabelLen := node.width - 4
  let truncLabel :=
    if (node.label.length : Int) > maxLabelLen then
      node.label.take (maxLabelLen - 3).toNat ++ "..."
    else node.label
  let padding := String.mk (List.replicate (maxLabelLen - (truncLabel.length : Int)).toNat ' ')
  let topBorder :=
    if node.selected then "╔" ++ repChar '═' (node.width - 2) ++ "╗"
    else "┌" ++ repChar '─' (node.width - 2) ++ "┐"
  let bottomBorder :=
    if node.selected then "╚" ++ repChar '═' (node.width - 2) ++ "╝"
    else "└" ++ repChar '─' (node.width - 2) ++ "┘"
  let side := if node.selected then "║" else "│"
  [ topBorder
  , side ++ " " ++ icon ++ " " ++ jsPadEnd (getTypeLabel node.type) (node.width - 5) ++ side
  , side ++ repChar ' ' (node.width - 2) ++ side
  , side ++ " " ++ truncLabel ++ padding ++ " " ++ side
  , bottomBorder ]

/-! ### Connector colors (createGradient/interpolateColor of
src/tui/effects.ts) -/

/-- Value of one hex digit; the colors fed in are always valid lowercase hex. -/
def hexDigitVal (c : Char) : Int :=
  if '0' ≤ c ∧ c ≤ '9' then (c.toNat - '0'.toNat : Nat)
  else if 'a' ≤ c ∧ c ≤ 'f' then ((c.toNat - 'a'.toNat : Nat) + 10)
  else if 'A' ≤ c ∧ c ≤ 'F' then ((c.toNat - 'A'.toNat : Nat) + 10)
  else 0

/-- `color.replace('#', '')`: drop the first '#' occurrence. -/
def removeFirstHash (l : List Char) : List Char :=
  match l with
  | [] => []
  | c :: rest => if c = '#' then rest else c :: removeFirstHash rest

/-- `parseInt(hex.substring(i, i+2), 16)` on a stripped color string. -/
def hexPair (l : List Char) (i : Nat) : Int :=
  16 * hexDigitVal (l.getD i '0') + hexDigitVal (l.getD (i + 1) '0')

/-- Hex digit character, lowercase as JS `toString(16)` produces. -/
def nibbleChar (n : Nat) : Char :=
  if n < 10 then Char.ofNat ('0'.toNat + n) else Char.ofNat ('a'.toNat + (n - 10))

/-- `channel.toString(16).padStart(2, '0')` for a channel value in [0, 255]. -/
def toHex2 (n : Int) : String :=
  String.mk [nibbleChar (n.toNat / 16 % 16), nibbleChar (n.toNat % 16)]

/-- JS `Math.round(num/den)` for den > 0: floor(num/den + 1/2). -/
def jsRoundDiv (num den : Int) : Int :=
  Int.fdiv (2 * num + den) (2 * den)

/-- interpolateColor (effects.ts lines 95-112) at the rational factor j/n
(the source computes `factor = j / segmentSteps` in floating point and
`Math.round(c1 + (c2 - c1) * factor)` per channel; here the same value is
computed exactly over the integers — no claim inspects the colors). -/
def interpolateColor (color1 color2 : String) (j n : Nat) : String :=
  let hex1 := removeFirstHash color1.toList
  let hex2 := removeFirstHash color2.toList
  let chan := fun (i : Nat) =>
    let c1 := hexPair hex1 i
    let c2 := hexPair hex2 i
    jsRoundDiv (c1 * n + (c2 - c1) * j) n
  "#" ++ toHex2 (chan 0) ++ toHex2 (chan 2) ++ toHex2 (chan 4)

/-- createGradient (effects.ts lines 115-137). -/
def createGradient (cs : List String) (steps : Nat) : List String :=
  if cs.length < 2 then cs
  else
    let segmentSteps := steps / (cs.length - 1)
    let segs := ((cs.zip cs.tail).map (fun ab =>
      if ab.1 ≠ "" ∧ ab.2 ≠ "" then
        (List.range segmentSteps).map (fun j => interpolateColor ab.1 ab.2 j segmentSteps)
      else [])).flatten
    segs ++ (match cs.getLast? with
      | some last => if last ≠ "" then [last] else []
      | none => [])

/-- createConnection (graph.ts lines 246-310). `Math.floor(width / 2)` is
`Int.fdiv`; `gradient[colorIndex++] || to.color` falls back to the target
color exactly when the index is out of range (gradient entries are non-empty
strings). -/
def createConnection (fromN toN : RenderedNode) : RenderedConnection :=
  let fromX := fromN.x + Int.fdiv fromN.width 2
  let fromY := fromN.y + fromN.height
  let toX := toN.x + Int.fdiv toN.width 2
  let toY := toN.y
  let gradient := createGradient [fromN.color, toN.color]
    ((toY - fromY).natAbs + (toX - fromX).natAbs)
  let vCount := (toY - fromY).toNat
  let vertPts := (List.range vCount).map (fun (i : Nat) =>
    ({ x := fromX, y := fromY + (i : Int), char := '│',
       color := gradient.getD i toN.color } : ConnPoint))
  let horizPts :=
    if fromX ≠ toX then
      let dir : Int := if toX > fromX then 1 else -1
      let corner1 : Char := if toX > fromX then '└' else '┘'
      let corner2 : Char := if toX > fromX then '┐' else '┌'
      let mid := (toX - fromX).natAbs - 1
      [({ x := fromX, y := toY - 1, char := corner1,
          color := gradient.getD vCount toN.color } : ConnPoint)] ++
      (List.range mid).map (fun (i : Nat) =>
        ({ x := fromX + dir * ((i : Int) + 1), y := toY - 1, char := '─',
           color := gradient.getD (vCount + 1 + i) toN.color } : ConnPoint)) ++
      [({ x := toX, y := toY - 1, char := corner2,
          color := gradient.getD (vCount + 1 + mid) toN.color } : ConnPoint)]
    else []
  let arrow : ConnPoint := { x := toX, y := toY - 1, char := '▼', color := toN.color }
  { fromId := fromN.id, toId := toN.id, points := vertPts ++ horizPts ++ [arrow] }

/-- The mutable state layoutComposition threads: the module-level idCounter
and the nodes/connections arrays the recursion pushes into. -/
structure LayoutState where
  counter : Nat
  nodes : List RenderedNode
  connections : List RenderedConnection
deriving DecidableEq, Repr

/-- Return value of one layoutNode call: the state after, the rendered node,
and the subtree's totalWidth/totalHeight. -/
structure LayoutResult where
  st : LayoutState
  node : RenderedNode
  width : Int
  height : Int
deriving DecidableEq, Repr

/-- The rendered box layoutNode builds for a node before placing children
(graph.ts lines 150-169): fresh id from the counter, fixed 24×5 box, selected
iff the id matches, box text from renderNodeBox. -/
def mkBox (c : CompositionNode) (x y : Int) (counter : Nat)
    (selectedId : Option String) : RenderedNode :=
  let id := "node-" ++ toString (counter + 1)
  let type := getNodeType c
  let node0 : RenderedNode :=
    { id := id, type := type, label := getNodeLabel c, x := x, y := y
      width := NODE_WIDTH, height := NODE_HEIGHT, color := getNodeColor type
      selected := (match selectedId with | some s => s == id | none => false)
      lines := [] }
  { node0 with lines := renderNodeBox node0 }

/-- The state mutation of one layoutNode prelude (graph.ts lines 150-178):
bump the id counter, push the box, and, when a parent id is given, push the
connection from the parent box found in the nodes array. -/
def pushNode (st : LayoutState) (c : CompositionNode) (x y : Int)
    (parentId : Option String) (selectedId : Option String) :
    LayoutState × RenderedNode :=
  let node := mkBox c x y st.counter selectedId
  let nodes := st.nodes ++ [node]
  let connections :=
    match parentId with
    | some pid =>
      match nodes.find? (fun n => n.id == pid) with
      | some parent => st.connections ++ [createConnection parent node]
      | none => st.connections
    | none => st.connections
  (⟨st.counter + 1, nodes, connections⟩, node)

mutual

/-- layoutNode (graph.ts lines 144-233), with the ambient idCounter made an
explicit state field. Per the source: generate the id, build and push the
node box, connect it to the parent box (looked up by id in the nodes array),
then place children by node type, accumulating totalWidth/totalHeight. -/
def layoutNode (compNode : CompositionNode) (x y : Int) (parentId : Option String)
    (selectedId : Option String) (st : LayoutState) : LayoutResult :=
  let pr := pushNode st compNode x y parentId selectedId
  let st1 := pr.1
  let node := pr.2
  let id := node.id
  match compNode with
  | CompositionNode.skillNode _ => ⟨st1, node, NODE_WIDTH, NODE_HEIGHT⟩
  | CompositionNode.pipeNode ns =>
    let r := layoutPipeChildren ns x (y + NODE_HEIGHT + V_SPACING) id selectedId st1
      NODE_WIDTH NODE_HEIGHT
    ⟨r.1, node, r.2.1, r.2.2⟩
  | CompositionNode.parallelNode ns =>
    let r := layoutParallelChildren ns x (y + NODE_HEIGHT + V_SPACING) id selectedId st1 0
    ⟨r.1, node, r.2.1 - x - H_SPACING, NODE_HEIGHT + V_SPACING + r.2.2⟩
  | CompositionNode.forkNode _ t e =>
    let childY := y + NODE_HEIGHT + V_SPACING
    let thenRes := layoutNode t x childY (some id) selectedId st1
    match e with
    | some el =>
      let elseX := x + thenRes.width + H_SPACING
      let elseRes := layoutNode el elseX childY (some id) selectedId thenRes.st
      ⟨elseRes.st, node, thenRes.width + H_SPACING + elseRes.width,
       NODE_HEIGHT + V_SPACING + max thenRes.height elseRes.height⟩
    | none =>
      ⟨thenRes.st, node, thenRes.width, NODE_HEIGHT + V_SPACING + thenRes.height⟩
  | CompositionNode.hydrateNode n _ =>
    let res := layoutNode n x (y + NODE_HEIGHT + V_SPACING) (some id) selectedId st1
    ⟨res.st, node, res.width, NODE_HEIGHT + V_SPACING + res.height⟩
termination_by structural compNode

/-- The pipe-children loop of layoutNode (graph.ts lines 184-192): stack the
children vertically at the parent's x, advancing childY and accumulating
totalWidth (max) and totalHeight (sum). Returns (state, totalWidth,
totalHeight). -/
def layoutPipeChildren (ns : List CompositionNode) (x childY : Int) (pid : String)
    (selectedId : Option String) (st : LayoutState) (totalW totalH : Int) :
    LayoutState × Int × Int :=
  match ns with
  | [] => (st, totalW, totalH)
  | n :: rest =>
    let res := layoutNode n x childY (some pid) selectedId st
    layoutPipeChildren rest x (childY + res.height + V_SPACING) pid selectedId res.st
      (max totalW res.width) (totalH + res.height + V_SPACING)
termination_by structural ns

/-- The parallel-children loop of layoutNode (graph.ts lines 193-206): place
the children in one row at childY, advancing childX and accumulating the max
child height. Returns (state, final childX, maxChildHeight). -/
def layoutParallelChildren (ns : List CompositionNode) (childX childY : Int)
    (pid : String) (selectedId : Option String) (st : LayoutState) (maxH : Int) :
    LayoutState × Int × Int :=
  match ns with
  | [] => (st, childX, maxH)
  | n :: rest =>
    let res := layoutNode n childX childY (some pid) selectedId st
    layoutParallelChildren rest (childX + res.width + H_SPACING) childY pid selectedId
      res.st (max maxH res.height)
termination_by structural ns

end

/-- layoutComposition (graph.ts lines 132-243). `counter` is the value of the
ambient module-level idCounter at call time. -/
def layoutComposition (node : Option CompositionNode) (selectedId : Option String)
    (counter : Nat) : RenderedGraph :=
  match node with
  | none => { nodes := [], connections := [], width := 0, height := 0 }
  | some n =>
    let res := layoutNode n 0 0 none selectedId ⟨counter, [], []⟩
    { nodes := res.st.nodes, connections := res.st.connections
      width := res.width, height := res.height }

/-! ## Render-to-buffer (graph.ts lines 313-368) -/

/-- Write one character into the 2-D buffer; JS checks
`row && row[x] !== undefined` (out-of-range and negative indices are
silent no-ops, which `List.set` beyond the range also is). -/
def setCell (buf : List (List Char)) (y x : Int) (c : Char) : List (List Char) :=
  if 0 ≤ y ∧ 0 ≤ x then
    buf.set y.toNat ((buf.getD y.toNat []).set x.toNat c)
  else buf

/-- renderGraphToStrings (graph.ts lines 313-368): the placeholder for an
empty node list, else a blank buffer of (height+3) rows × (width+3) columns
(the loops run to `<= height + 2` and `<= width + 2` inclusive), connections
drawn first, node box lines blitted on top, rows joined to strings. The
parallel colorBuffer the source also fills is not part of the return value
and is elided. -/
def renderGraphToStrings (graph : RenderedGraph) : List String :=
  if graph.nodes.isEmpty then
    ["  No composition yet. Press \"s\" to inscribe a new spell."]
  else
    let numRows := (graph.height + 3).toNat
    let numCols := (graph.width + 3).toNat
    let buf0 := List.replicate numRows (List.replicate numCols ' ')
    let buf1 := graph.connections.foldl
      (fun buf conn => conn.points.foldl (fun b p => setCell b p.y p.x p.char) buf)
      buf0
    let buf2 := graph.nodes.foldl
      (fun buf node =>
        (List.range node.lines.length).foldl
          (fun b (ly : Nat) =>
            let line := node.lines.getD ly ""
            (List.range line.length).foldl
              (fun b2 (lx : Nat) => setCell b2 (node.y + (ly : Int)) (node.x + (lx : Int))
                (line.toList.getD lx ' '))
              b)
          buf)
      buf1
    buf2.map (fun row => String.mk row)

/-! ## Pure structural measures used by the theorems -/

mutual

/-- Number of rendered boxes a subtree contributes (one per AST node). -/
def countNodes (node : CompositionNode) : Nat :=
  match node with
  | CompositionNode.skillNode _ => 1
  | CompositionNode.pipeNode ns => 1 + countList ns
  | CompositionNode.parallelNode ns => 1 + countList ns
  | CompositionNode.forkNode _ t e =>
    1 + countNodes t + (match e with | some el => countNodes el | none => 0)
  | CompositionNode.hydrateNode n _ => 1 + countNodes n
termination_by structural node

/-- Sum of `countNodes` over a child list. -/
def countList (ns : List CompositionNode) : Nat :=
  match ns with
  | [] => 0
  | n :: rest => countNodes n + countList rest
termination_by structural ns

end

mutual

/-- The totalWidth layoutNode reports for a subtree (state- and
position-independent; proved so below). -/
def subtreeW (node : CompositionNode) : Int :=
  match node with
  | CompositionNode.skillNode _ => NODE_WIDTH
  | CompositionNode.pipeNode ns => maxOfWidths ns NODE_WIDTH
  | CompositionNode.parallelNode ns => sumOfWidths ns - H_SPACING
  | CompositionNode.forkNode _ t e =>
    match e with
    | some el => subtreeW t + H_SPACING + subtreeW el
    | none => subtreeW t
  | CompositionNode.hydrateNode n _ => subtreeW n
termination_by structural node

/-- Running max of child widths, as the pipe loop accumulates totalWidth. -/
def maxOfWidths (ns : List CompositionNode) (acc : Int) : Int :=
  match ns with
  | [] => acc
  | n :: rest => maxOfWidths rest (max acc (subtreeW n))
termination_by structural ns

/-- Sum of (child width + H_SPACING), the parallel loop's childX advance. -/
def sumOfWidths (ns : List CompositionNode) : Int :=
  match ns with
  | [] => 0
  | n :: rest => subtreeW n + H_SPACING + sumOfWidths rest
termination_by structural ns

end

mutual

/-- The totalHeight layoutNode reports for a subtree. -/
def subtreeH (node : CompositionNode) : Int :=
  match node with
  | CompositionNode.skillNode _ => NODE_HEIGHT
  | CompositionNode.pipeNode ns => NODE_HEIGHT + sumOfHeights ns
  | CompositionNode.parallelNode ns => NODE_HEIGHT + V_SPACING + maxOfHeights ns 0
  | CompositionNode.forkNode _ t e =>
    match e with
    | some el => NODE_HEIGHT + V_SPACING + max (subtreeH t) (subtreeH el)
    | none => NODE_HEIGHT + V_SPACING + subtreeH t
  | CompositionNode.hydrateNode n _ => NODE_HEIGHT + V_SPACING + subtreeH n
termination_by structural node

/-- Sum of (child height + V_SPACING), the pipe loop's totalHeight advance. -/
def sumOfHeights (ns : List CompositionNode) : Int :=
  match ns with
  | [] => 0
  | n :: rest => subtreeH n + V_SPACING + sumOfHeights rest
termination_by structural ns

/-- Running max of child heights, the parallel loop's maxChildHeight. -/
def maxOfHeights (ns : List CompositionNode) (acc : Int) : Int :=
  match ns with
  | [] => acc
  | n :: rest => maxOfHeights rest (max acc (subtreeH n))
termination_by structural ns

end

mutual

/-- A tree the Composition Model's constructors can produce: pipe/parallel
child lists non-empty, fork conditions non-empty, hydration configs
non-empty. -/
def validTree (node : CompositionNode) : Bool :=
  match node with
  | CompositionNode.skillNode _ => true
  | CompositionNode.pipeNode ns => (!ns.isEmpty) && validList ns
  | CompositionNode.parallelNode ns => (!ns.isEmpty) && validList ns
  | CompositionNode.forkNode w t e =>
    (w != "") && validTree t &&
      (match e with | some el => validTree el | none => true)
  | CompositionNode.hydrateNode n cfg => (!cfg.keys.isEmpty) && validTree n
termination_by structural node

/-- All members of a child list are valid trees. -/
def validList (ns : List CompositionNode) : Bool :=
  match ns with
  | [] => true
  | n :: rest => validTree n && validList rest
termination_by structural ns

end

/-! ## Fixtures for concrete evaluations -/

/-- A sample inline skill. -/
def sampleSkillA : Skill :=
  { name := "alpha", description := none, instructions := "do alpha"
    source := SkillSource.inline, metadata := none }

/-- A second sample inline skill. -/
def sampleSkillB : Skill :=
  { name := "beta", description := none, instructions := "do beta"
    source := SkillSource.inline, metadata := none }

/-- Leaf node over `sampleSkillA`. -/
def leafAlpha : CompositionNode := CompositionNode.skillNode sampleSkillA

/-- Leaf node over `sampleSkillB`. -/
def leafBeta : CompositionNode := CompositionNode.skillNode sampleSkillB

/-- A hydration config object (reference 1). -/
def cfgA : HydrationConfig := { ref := 1, keys := ["k"] }

/-- A distinct config object carrying the same keys as `cfgA` (reference 2):
identical-looking but not identical. -/
def cfgB : HydrationConfig := { ref := 2, keys := ["k"] }

/-! ## Induction principle for the nested AST -/

/-- Structural induction over `CompositionNode`, with child lists exposed via
membership; proved by strong induction on `sizeOf`. -/
theorem compNode_ind (P : CompositionNode → Prop)
    (hskill : ∀ sk, P (CompositionNode.skillNode sk))
    (hpipe : ∀ ns, (∀ c ∈ ns, P c) → P (CompositionNode.pipeNode ns))
    (hpar : ∀ ns, (∀ c ∈ ns, P c) → P (CompositionNode.parallelNode ns))
    (hfork : ∀ w t e, P t → (∀ el, e = some el → P el) → P (CompositionNode.forkNode w t e))
    (hhyd : ∀ m cfg, P m → P (CompositionNode.hydrateNode m cfg)) :
    ∀ c, P c := by
  have key : ∀ (n : Nat) (c : CompositionNode), sizeOf c ≤ n → P c := by
    intro n
    induction n with
    | zero =>
      intro c h
      cases c <;> simp at h
    | succ n ih =>
      intro c h
      cases c with
      | skillNode sk => exact hskill sk
      | pipeNode ns =>
        refine hpipe ns (fun m hm => ih m ?_)
        have := List.sizeOf_lt_of_mem hm
        simp at h
        omega
      | parallelNode ns =>
        refine hpar ns (fun m hm => ih m ?_)
        have := List.sizeOf_lt_of_mem hm
        simp at h
        omega
      | forkNode w t e =>
        refine hfork w t e (ih t ?_) (fun el hel => ih el ?_)
        · simp at h
          omega
        · subst hel
          simp at h
          omega
      | hydrateNode m cfg =>
        refine hhyd m cfg (ih m ?_)
        simp at h
        omega
  exact fun c => key (sizeOf c) c (Nat.le_refl _)

/-! ## Layout-state characterization lemmas -/

/-- What one pushNode call does to the state: bump the counter, append the
mkBox box, append zero or one connection. -/
theorem pushNode_spec (st : LayoutState) (c : CompositionNode) (x y : Int)
    (pid sel : Option String) :
    (pushNode st c x y pid sel).2 = mkBox c x y st.counter sel ∧
    (pushNode st c x y pid sel).1.counter = st.counter + 1 ∧
    (pushNode st c x y pid sel).1.nodes = st.nodes ++ [mkBox c x y st.counter sel] ∧
    ∃ cs, (pushNode st c x y pid sel).1.connections = st.connections ++ cs := by
  refine ⟨rfl, rfl, rfl, ?_⟩
  cases pid with
  | none => exact ⟨[], by simp [pushNode]⟩
  | some p =>
    dsimp only [pushNode]
    cases h : (st.nodes ++ [mkBox c x y st.counter sel]).find? (fun n => n.id == p) with
    | some parent =>
      exact ⟨[createConnection parent (mkBox c x y st.counter sel)], by simp [h]⟩
    | none => exact ⟨[], by simp [h]⟩

/-- The node a layoutNode call returns is exactly the box its prelude
pushed. -/
theorem layoutNode_node (c : CompositionNode) (x y : Int) (pid sel : Option String)
    (st : LayoutState) :
    (layoutNode c x y pid sel st).node = mkBox c x y st.counter sel := by
  cases c with
  | skillNode sk => rfl
  | pipeNode ns => rfl
  | parallelNode ns => rfl
  | forkNode w t e => cases e <;> rfl
  | hydrateNode n cfg => rfl

/-- Specification of one layoutNode call, used for the inductive layout
proofs: the counter advances by the subtree's node count; the nodes array is
extended by the subtree's boxes, starting with the node's own box; the
connection list only grows; and the reported width/height are the pure
subtreeW/subtreeH measures. -/
def LayoutNodeSpec (c : CompositionNode) : Prop :=
  ∀ (x y : Int) (pid sel : Option String) (st : LayoutState),
    (layoutNode c x y pid sel st).st.counter = st.counter + countNodes c ∧
    (∃ rest, (layoutNode c x y pid sel st).st.nodes
        = st.nodes ++ (layoutNode c x y pid sel st).node :: rest ∧
      rest.length + 1 = countNodes c) ∧
    (∃ cs, (layoutNode c x y pid sel st).st.connections = st.connections ++ cs) ∧
    (layoutNode c x y pid sel st).width = subtreeW c ∧
    (layoutNode c x y pid sel st).height = subtreeH c

/-- The pipe-children loop: counter advances by the child count, nodes and
connections only grow, and the accumulators compute `maxOfWidths` and the
running height sum. -/
theorem layoutPipeChildren_spec (ns : List CompositionNode)
    (H : ∀ c ∈ ns, LayoutNodeSpec c) :
    ∀ (x cy : Int) (pid : String) (sel : Option String) (st : LayoutState)
      (tw th : Int),
      (layoutPipeChildren ns x cy pid sel st tw th).1.counter
        = st.counter + countList ns ∧
      (∃ new, (layoutPipeChildren ns x cy pid sel st tw th).1.nodes
          = st.nodes ++ new ∧ new.length = countList ns) ∧
      (∃ cs, (layoutPipeChildren ns x cy pid sel st tw th).1.connections
          = st.connections ++ cs) ∧
      (layoutPipeChildren ns x cy pid sel st tw th).2.1 = maxOfWidths ns tw ∧
      (layoutPipeChildren ns x cy pid sel st tw th).2.2 = th + sumOfHeights ns := by
  induction ns with
  | nil =>
    intro x cy pid sel st tw th
    refine ⟨by simp [layoutPipeChildren, countList], ⟨[], by simp [layoutPipeChildren], by simp [countList]⟩,
      ⟨[], by simp [layoutPipeChildren]⟩, by simp [layoutPipeChildren, maxOfWidths], ?_⟩
    show th = th + sumOfHeights []
    simp [sumOfHeights]
  | cons n rest ih =>
    intro x cy pid sel st tw th
    have hn := H n (List.mem_cons_self _ _) x cy (some pid) sel st
    obtain ⟨hcnt, ⟨r1, hns, hlen⟩, ⟨cs1, hcs⟩, hw, hh⟩ := hn
    have ihr := ih (fun c hc => H c (List.mem_cons_of_mem _ hc))
      x (cy + (layoutNode n x cy (some pid) sel st).height + V_SPACING) pid sel
      (layoutNode n x cy (some pid) sel st).st
      (max tw (layoutNode n x cy (some pid) sel st).width)
      (th + (layoutNode n x cy (some pid) sel st).height + V_SPACING)
    obtain ⟨icnt, ⟨new2, inodes, ilen⟩, ⟨cs2, iconns⟩, iw, ihgt⟩ := ihr
    have hunfold : layoutPipeChildren (n :: rest) x cy pid sel st tw th
        = layoutPipeChildren rest x
            (cy + (layoutNode n x cy (some pid) sel st).height + V_SPACING) pid sel
            (layoutNode n x cy (some pid) sel st).st
            (max tw (layoutNode n x cy (some pid) sel st).width)
            (th + (layoutNode n x cy (some pid) sel st).height + V_SPACING) := rfl
    rw [hunfold]
    refine ⟨?_, ⟨(layoutNode n x cy (some pid) sel st).node :: r1 ++ new2, ?_, ?_⟩,
      ⟨cs1 ++ cs2, ?_⟩, ?_, ?_⟩
    · rw [icnt, hcnt, countList]
      omega
    · rw [inodes, hns]
      simp
    · simp only [List.length_cons, List.length_append, countList]
      omega
    · rw [iconns, hcs]
      simp
    · rw [iw, hw, maxOfWidths]
    · rw [ihgt, hh, sumOfHeights]
      ring

/-- The parallel-children loop: counter advances by the child count, nodes
and connections only grow, the running x advances by `sumOfWidths`, and the
max-height accumulator computes `maxOfHeights`. -/
theorem layoutParallelChildren_spec (ns : List CompositionNode)
    (H : ∀ c ∈ ns, LayoutNodeSpec c) :
    ∀ (cx cy : Int) (pid : String) (sel : Option String) (st : LayoutState)
      (mh : Int),
      (layoutParallelChildren ns cx cy pid sel st mh).1.counter
        = st.counter + countList ns ∧
      (∃ new, (layoutParallelChildren ns cx cy pid sel st mh).1.nodes
          = st.nodes ++ new ∧ new.length = countList ns) ∧
      (∃ cs, (layoutParallelChildren ns cx cy pid sel st mh).1.connections
          = st.connections ++ cs) ∧
      (layoutParallelChildren ns cx cy pid sel st mh).2.1 = cx + sumOfWidths ns ∧
      (layoutParallelChildren ns cx cy pid sel st mh).2.2 = maxOfHeights ns mh := by
  induction ns with
  | nil =>
    intro cx cy pid sel st mh
    refine ⟨by simp [layoutParallelChildren, countList],
      ⟨[], by simp [layoutParallelChildren], by simp [countList]⟩,
      ⟨[], by simp [layoutParallelChildren]⟩, ?_, by simp [layoutParallelChildren, maxOfHeights]⟩
    show cx = cx + sumOfWidths []
    simp [sumOfWidths]
  | cons n rest ih =>
    intro cx cy pid sel st mh
    have hn := H n (List.mem_cons_self _ _) cx cy (some pid) sel st
    obtain ⟨hcnt, ⟨r1, hns, hlen⟩, ⟨cs1, hcs⟩, hw, hh⟩ := hn
    have ihr := ih (fun c hc => H c (List.mem_cons_of_mem _ hc))
      (cx + (layoutNode n cx cy (some pid) sel st).width + H_SPACING) cy pid sel
      (layoutNode n cx cy (some pid) sel st).st
      (max mh (layoutNode n cx cy (some pid) sel st).height)
    obtain ⟨icnt, ⟨new2, inodes, ilen⟩, ⟨cs2, iconns⟩, ix, ihgt⟩ := ihr
    have hunfold : layoutParallelChildren (n :: rest) cx cy pid sel st mh
        = layoutParallelChildren rest
            (cx + (layoutNode n cx cy (some pid) sel st).width + H_SPACING) cy pid sel
            (layoutNode n cx cy (some pid) sel st).st
            (max mh (layoutNode n cx cy (some pid) sel st).height) := rfl
    rw [hunfold]
    refine ⟨?_, ⟨(layoutNode n cx cy (some pid) sel st).node :: r1 ++ new2, ?_, ?_⟩,
      ⟨cs1 ++ cs2, ?_⟩, ?_, ?_⟩
    · rw [icnt, hcnt, countList]
      omega
    · rw [inodes, hns]
      simp
    · simp only [List.length_cons, List.length_append, countList]
      omega
    · rw [iconns, hcs]
      simp
    · rw [ix, hw, sumOfWidths]
      ring
    · rw [ihgt, hh, maxOfHeights]

/-- Every subtree satisfies the layout specification. -/
theorem layoutNode_spec : ∀ c, LayoutNodeSpec c := by
  apply compNode_ind
  · intro sk x y pid sel st
    obtain ⟨hnode, hcnt, hnodes, cs, hcs⟩ :=
      pushNode_spec st (CompositionNode.skillNode sk) x y pid sel
    exact ⟨hcnt, ⟨[], by rw [show (layoutNode (CompositionNode.skillNode sk) x y pid sel st).st.nodes
        = (pushNode st (CompositionNode.skillNode sk) x y pid sel).1.nodes from rfl,
      hnodes, layoutNode_node], rfl⟩, ⟨cs, hcs⟩, rfl, rfl⟩
  · intro ns H x y pid sel st
    obtain ⟨hnode, hcnt, hnodes, cs0, hcs0⟩ :=
      pushNode_spec st (CompositionNode.pipeNode ns) x y pid sel
    obtain ⟨icnt, ⟨new, inodes, ilen⟩, ⟨cs2, iconns⟩, iw, ihgt⟩ :=
      layoutPipeChildren_spec ns H x (y + NODE_HEIGHT + V_SPACING)
        (pushNode st (CompositionNode.pipeNode ns) x y pid sel).2.id sel
        (pushNode st (CompositionNode.pipeNode ns) x y pid sel).1 NODE_WIDTH NODE_HEIGHT
    have hu : layoutNode (CompositionNode.pipeNode ns) x y pid sel st
        = ⟨(layoutPipeChildren ns x (y + NODE_HEIGHT + V_SPACING)
              (pushNode st (CompositionNode.pipeNode ns) x y pid sel).2.id sel
              (pushNode st (CompositionNode.pipeNode ns) x y pid sel).1
              NODE_WIDTH NODE_HEIGHT).1,
           (pushNode st (CompositionNode.pipeNode ns) x y pid sel).2,
           (layoutPipeChildren ns x (y + NODE_HEIGHT + V_SPACING)
              (pushNode st (CompositionNode.pipeNode ns) x y pid sel).2.id sel
              (pushNode st (CompositionNode.pipeNode ns) x y pid sel).1
              NODE_WIDTH NODE_HEIGHT).2.1,
           (layoutPipeChildren ns x (y + NODE_HEIGHT + V_SPACING)
              (pushNode st (CompositionNode.pipeNode ns) x y pid sel).2.id sel
              (pushNode st (CompositionNode.pipeNode ns) x y pid sel).1
              NODE_WIDTH NODE_HEIGHT).2.2⟩ := rfl
    rw [hu]
    refine ⟨?_, ⟨new, ?_, ?_⟩, ⟨cs0 ++ cs2, ?_⟩, ?_, ?_⟩
    · dsimp only
      rw [icnt, hcnt, countNodes]
      omega
    · dsimp only
      rw [inodes, hnodes, hnode]
      simp
    · rw [ilen, countNodes]
      omega
    · dsimp only
      rw [iconns, hcs0]
      simp
    · dsimp only
      rw [iw, subtreeW]
    · dsimp only
      rw [ihgt, subtreeH]
  · intro ns H x y pid sel st
    obtain ⟨hnode, hcnt, hnodes, cs0, hcs0⟩ :=
      pushNode_spec st (CompositionNode.parallelNode ns) x y pid sel
    obtain ⟨icnt, ⟨new, inodes, ilen⟩, ⟨cs2, iconns⟩, ix, ihgt⟩ :=
      layoutParallelChildren_spec ns H x (y + NODE_HEIGHT + V_SPACING)
        (pushNode st (CompositionNode.parallelNode ns) x y pid sel).2.id sel
        (pushNode st (CompositionNode.parallelNode ns) x y pid sel).1 0
    have hu : layoutNode (CompositionNode.parallelNode ns) x y pid sel st
        = ⟨(layoutParallelChildren ns x (y + NODE_HEIGHT + V_SPACING)
              (pushNode st (CompositionNode.parallelNode ns) x y pid sel).2.id sel
              (pushNode st (CompositionNode.parallelNode ns) x y pid sel).1 0).1,
           (pushNode st (CompositionNode.parallelNode ns) x y pid sel).2,
           (layoutParallelChildren ns x (y + NODE_HEIGHT + V_SPACING)
              (pushNode st (CompositionNode.parallelNode ns) x y pid sel).2.id sel
              (pushNode st (CompositionNode.parallelNode ns) x y pid sel).1 0).2.1
             - x - H_SPACING,
           NODE_HEIGHT + V_SPACING +
           (layoutParallelChildren ns x (y + NODE_HEIGHT + V_SPACING)
              (pushNode st (CompositionNode.parallelNode ns) x y pid sel).2.id sel
              (pushNode st (CompositionNode.parallelNode ns) x y pid sel).1 0).2.2⟩ := rfl
    rw [hu]
    refine ⟨?_, ⟨new, ?_, ?_⟩, ⟨cs0 ++ cs2, ?_⟩, ?_, ?_⟩
    · dsimp only
      rw [icnt, hcnt, countNodes]
      omega
    · dsimp only
      rw [inodes, hnodes, hnode]
      simp
    · rw [ilen, countNodes]
      omega
    · dsimp only
      rw [iconns, hcs0]
      simp
    · dsimp only
      rw [ix, subtreeW]
      ring
    · dsimp only
      rw [ihgt, subtreeH]
  · intro w t e Ht He x y pid sel st
    cases e with
    | none =>
      obtain ⟨hnode, hcnt, hnodes, cs0, hcs0⟩ :=
        pushNode_spec st (CompositionNode.forkNode w t none) x y pid sel
      obtain ⟨tcnt, ⟨r1, tns, tlen⟩, ⟨cs1, tcs⟩, tw, th⟩ :=
        Ht x (y + NODE_HEIGHT + V_SPACING)
          (some (pushNode st (CompositionNode.forkNode w t none) x y pid sel).2.id) sel
          (pushNode st (CompositionNode.forkNode w t none) x y pid sel).1
      have hu : layoutNode (CompositionNode.forkNode w t none) x y pid sel st
          = ⟨(layoutNode t x (y + NODE_HEIGHT + V_SPACING)
                (some (pushNode st (CompositionNode.forkNode w t none) x y pid sel).2.id) sel
                (pushNode st (CompositionNode.forkNode w t none) x y pid sel).1).st,
             (pushNode st (CompositionNode.forkNode w t none) x y pid sel).2,
             (layoutNode t x (y + NODE_HEIGHT + V_SPACING)
                (some (pushNode st (CompositionNode.forkNode w t none) x y pid sel).2.id) sel
                (pushNode st (CompositionNode.forkNode w t none) x y pid sel).1).width,
             NODE_HEIGHT + V_SPACING +
             (layoutNode t x (y + NODE_HEIGHT + V_SPACING)
                (some (pushNode st (CompositionNode.forkNode w t none) x y pid sel).2.id) sel
                (pushNode st (CompositionNode.forkNode w t none) x y pid sel).1).height⟩ := rfl
      rw [hu]
      refine ⟨?_, ⟨(layoutNode t x (y + NODE_HEIGHT + V_SPACING)
          (some (pushNode st (CompositionNode.forkNode w t none) x y pid sel).2.id) sel
          (pushNode st (CompositionNode.forkNode w t none) x y pid sel).1).node :: r1,
        ?_, ?_⟩, ⟨cs0 ++ cs1, ?_⟩, ?_, ?_⟩
      · dsimp only
        rw [tcnt, hcnt, countNodes]
        omega
      · dsimp only
        rw [tns, hnodes, hnode]
        simp
      · simp only [countNodes, List.length_cons]
        omega
      · dsimp only
        rw [tcs, hcs0]
        simp
      · dsimp only
        rw [tw, subtreeW]
      · dsimp only
        rw [th, subtreeH]
    | some el =>
      obtain ⟨hnode, hcnt, hnodes, cs0, hcs0⟩ :=
        pushNode_spec st (CompositionNode.forkNode w t (some el)) x y pid sel
      set P := pushNode st (CompositionNode.forkNode w t (some el)) x y pid sel with hP
      set TR := layoutNode t x (y + NODE_HEIGHT + V_SPACING) (some P.2.id) sel P.1 with hTR
      set ER := layoutNode el (x + TR.width + H_SPACING) (y + NODE_HEIGHT + V_SPACING)
        (some P.2.id) sel TR.st with hER
      obtain ⟨tcnt, ⟨r1, tns, tlen⟩, ⟨cs1, tcs⟩, tw, th⟩ :=
        Ht x (y + NODE_HEIGHT + V_SPACING) (some P.2.id) sel P.1
      obtain ⟨ecnt, ⟨r2, ens, elen⟩, ⟨cs2, ecs⟩, ew, eh⟩ :=
        He el rfl (x + TR.width + H_SPACING) (y + NODE_HEIGHT + V_SPACING)
          (some P.2.id) sel TR.st
      rw [← hTR] at tcnt tns tcs tw th
      rw [← hER] at ecnt ens ecs ew eh
      have hu : layoutNode (CompositionNode.forkNode w t (some el)) x y pid sel st
          = ⟨ER.st, P.2, TR.width + H_SPACING + ER.width,
             NODE_HEIGHT + V_SPACING + max TR.height ER.height⟩ := rfl
      rw [hu]
      refine ⟨?_, ⟨TR.node :: (r1 ++ ER.node :: r2), ?_, ?_⟩,
        ⟨cs0 ++ (cs1 ++ cs2), ?_⟩, ?_, ?_⟩
      · dsimp only
        rw [ecnt, tcnt, hcnt, countNodes]
        omega
      · dsimp only
        rw [ens, tns, hnodes, hnode]
        simp
      · simp only [countNodes, List.length_cons, List.length_append]
        omega
      · dsimp only
        rw [ecs, tcs, hcs0]
        simp
      · dsimp only
        rw [ew, tw, subtreeW]
      · dsimp only
        rw [eh, th, subtreeH]
  · intro m cfg Hm x y pid sel st
    obtain ⟨hnode, hcnt, hnodes, cs0, hcs0⟩ :=
      pushNode_spec st (CompositionNode.hydrateNode m cfg) x y pid sel
    obtain ⟨mcnt, ⟨r1, mns, mlen⟩, ⟨cs1, mcs⟩, mw, mh⟩ :=
      Hm x (y + NODE_HEIGHT + V_SPACING)
        (some (pushNode st (CompositionNode.hydrateNode m cfg) x y pid sel).2.id) sel
        (pushNode st (CompositionNode.hydrateNode m cfg) x y pid sel).1
    have hu : layoutNode (CompositionNode.hydrateNode m cfg) x y pid sel st
        = ⟨(layoutNode m x (y + NODE_HEIGHT + V_SPACING)
              (some (pushNode st (CompositionNode.hydrateNode m cfg) x y pid sel).2.id) sel
              (pushNode st (CompositionNode.hydrateNode m cfg) x y pid sel).1).st,
           (pushNode st (CompositionNode.hydrateNode m cfg) x y pid sel).2,
           (layoutNode m x (y + NODE_HEIGHT + V_SPACING)
              (some (pushNode st (CompositionNode.hydrateNode m cfg) x y pid sel).2.id) sel
              (pushNode st (CompositionNode.hydrateNode m cfg) x y pid sel).1).width,
           NODE_HEIGHT + V_SPACING +
           (layoutNode m x (y + NODE_HEIGHT + V_SPACING)
              (some (pushNode st (CompositionNode.hydrateNode m cfg) x y pid sel).2.id) sel
              (pushNode st (CompositionNode.hydrateNode m cfg) x y pid sel).1).height⟩ := rfl
    rw [hu]
    refine ⟨?_, ⟨(layoutNode m x (y + NODE_HEIGHT + V_SPACING)
        (some (pushNode st (CompositionNode.hydrateNode m cfg) x y pid sel).2.id) sel
        (pushNode st (CompositionNode.hydrateNode m cfg) x y pid sel).1).node :: r1,
      ?_, ?_⟩, ⟨cs0 ++ cs1, ?_⟩, ?_, ?_⟩
    · dsimp only
      rw [mcnt, hcnt, countNodes]
      omega
    · dsimp only
      rw [mns, hnodes, hnode]
      simp
    · simp only [countNodes, List.length_cons]
      omega
    · dsimp only
      rw [mcs, hcs0]
      simp
    · dsimp only
      rw [mw, subtreeW]
    · dsimp only
      rw [mh, subtreeH]

/-- Field values of the box the layout builds. -/
theorem mkBox_fields (c : CompositionNode) (x y : Int) (counter : Nat)
    (sel : Option String) :
    (mkBox c x y counter sel).x = x ∧ (mkBox c x y counter sel).y = y ∧
    (mkBox c x y counter sel).width = NODE_WIDTH ∧
    (mkBox c x y counter sel).height = NODE_HEIGHT ∧
    (mkBox c x y counter sel).id = "node-" ++ toString (counter + 1) ∧
    (mkBox c x y counter sel).type = getNodeType c :=
  ⟨rfl, rfl, rfl, rfl, rfl, rfl⟩

/-- Every subtree contributes at least one box. -/
theorem countNodes_pos (c : CompositionNode) : 1 ≤ countNodes c := by
  cases c with
  | skillNode sk => simp [countNodes]
  | pipeNode ns => simp [countNodes]
  | parallelNode ns => simp [countNodes]
  | forkNode w t e => cases e <;> (simp only [countNodes]; omega)
  | hydrateNode n cfg => simp [countNodes]

/-- validList is the pointwise validity of the members. -/
theorem validList_iff (ns : List CompositionNode) :
    validList ns = true ↔ ∀ c ∈ ns, validTree c = true := by
  induction ns with
  | nil => simp [validList]
  | cons n rest ih => simp [validList, ih]

/-- The running-max width accumulator only grows. -/
theorem maxOfWidths_ge (ns : List CompositionNode) :
    ∀ acc : Int, acc ≤ maxOfWidths ns acc := by
  induction ns with
  | nil => intro acc; simp [maxOfWidths]
  | cons n rest ih =>
    intro acc
    calc acc ≤ max acc (subtreeW n) := le_max_left _ _
    _ ≤ maxOfWidths rest (max acc (subtreeW n)) := ih _
    _ = maxOfWidths (n :: rest) acc := rfl

/-- The running-max height accumulator only grows. -/
theorem maxOfHeights_ge (ns : List CompositionNode) :
    ∀ acc : Int, acc ≤ maxOfHeights ns acc := by
  induction ns with
  | nil => intro acc; simp [maxOfHeights]
  | cons n rest ih =>
    intro acc
    calc acc ≤ max acc (subtreeH n) := le_max_left _ _
    _ ≤ maxOfHeights rest (max acc (subtreeH n)) := ih _
    _ = maxOfHeights (n :: rest) acc := rfl

/-- Lower bound on the parallel x-advance when every child is at least a box
wide. -/
theorem sumOfWidths_lower (ns : List CompositionNode)
    (h : ∀ c ∈ ns, NODE_WIDTH ≤ subtreeW c) :
    (NODE_WIDTH + H_SPACING) * (ns.length : Int) ≤ sumOfWidths ns := by
  induction ns with
  | nil => simp [sumOfWidths]
  | cons n rest ih =>
    have h1 := h n (List.mem_cons_self _ _)
    have h2 := ih (fun c hc => h c (List.mem_cons_of_mem _ hc))
    show (NODE_WIDTH + H_SPACING) * ((rest.length : Int) + 1)
      ≤ subtreeW n + H_SPACING + sumOfWidths rest
    have : (NODE_WIDTH + H_SPACING) * ((rest.length : Int) + 1)
        = (NODE_WIDTH + H_SPACING) * (rest.length : Int) + (NODE_WIDTH + H_SPACING) := by
      ring
    rw [this]
    simp only [NODE_WIDTH, H_SPACING] at h1 h2 ⊢
    omega

/-- Lower bound on the pipe height-advance when every child is at least a box
tall. -/
theorem sumOfHeights_lower (ns : List CompositionNode)
    (h : ∀ c ∈ ns, NODE_HEIGHT ≤ subtreeH c) :
    (NODE_HEIGHT + V_SPACING) * (ns.length : Int) ≤ sumOfHeights ns := by
  induction ns with
  | nil => simp [sumOfHeights]
  | cons n rest ih =>
    have h1 := h n (List.mem_cons_self _ _)
    have h2 := ih (fun c hc => h c (List.mem_cons_of_mem _ hc))
    show (NODE_HEIGHT + V_SPACING) * ((rest.length : Int) + 1)
      ≤ subtreeH n + V_SPACING + sumOfHeights rest
    have : (NODE_HEIGHT + V_SPACING) * ((rest.length : Int) + 1)
        = (NODE_HEIGHT + V_SPACING) * (rest.length : Int) + (NODE_HEIGHT + V_SPACING) := by
      ring
    rw [this]
    simp only [NODE_HEIGHT, V_SPACING] at h1 h2 ⊢
    omega

/-- On Model-producible trees the reported subtree dimensions are at least
one box. -/
theorem subtree_dims_lower :
    ∀ c, validTree c = true → NODE_WIDTH ≤ subtreeW c ∧ NODE_HEIGHT ≤ subtreeH c := by
  apply compNode_ind (fun c => validTree c = true →
    NODE_WIDTH ≤ subtreeW c ∧ NODE_HEIGHT ≤ subtreeH c)
  · intro sk _
    exact ⟨le_refl _, le_refl _⟩
  · intro ns H hv
    simp only [validTree, Bool.and_eq_true] at hv
    have hmem : ∀ c ∈ ns, validTree c = true := (validList_iff ns).mp hv.2
    have hdim : ∀ c ∈ ns, NODE_HEIGHT ≤ subtreeH c :=
      fun c hc => (H c hc (hmem c hc)).2
    constructor
    · show NODE_WIDTH ≤ maxOfWidths ns NODE_WIDTH
      exact maxOfWidths_ge ns NODE_WIDTH
    · show NODE_HEIGHT ≤ NODE_HEIGHT + sumOfHeights ns
      have := sumOfHeights_lower ns hdim
      have hlen : (0 : Int) ≤ (ns.length : Int) := Int.natCast_nonneg _
      simp only [NODE_HEIGHT, V_SPACING] at this ⊢
      omega
  · intro ns H hv
    simp only [validTree, Bool.and_eq_true] at hv
    obtain ⟨hne, hvl⟩ := hv
    have hmem : ∀ c ∈ ns, validTree c = true := (validList_iff ns).mp hvl
    have hwid : ∀ c ∈ ns, NODE_WIDTH ≤ subtreeW c :=
      fun c hc => (H c hc (hmem c hc)).1
    have hlen : 1 ≤ (ns.length : Int) := by
      cases ns with
      | nil => simp at hne
      | cons a l =>
        have h0 : (0 : Int) ≤ (l.length : Int) := Int.natCast_nonneg _
        simp only [List.length_cons]
        push_cast
        omega
    constructor
    · show NODE_WIDTH ≤ sumOfWidths ns - H_SPACING
      have := sumOfWidths_lower ns hwid
      simp only [NODE_WIDTH, H_SPACING] at this ⊢
      omega
    · show NODE_HEIGHT ≤ NODE_HEIGHT + V_SPACING + maxOfHeights ns 0
      have := maxOfHeights_ge ns 0
      simp only [NODE_HEIGHT, V_SPACING]
      omega
  · intro w t e Ht He hv
    have hvt : validTree t = true := by
      cases e <;> simp only [validTree, Bool.and_eq_true] at hv <;> tauto
    have ht := Ht hvt
    cases e with
    | none =>
      refine ⟨?_, ?_⟩
      · show NODE_WIDTH ≤ subtreeW t
        exact ht.1
      · show NODE_HEIGHT ≤ NODE_HEIGHT + V_SPACING + subtreeH t
        have := ht.2
        simp only [NODE_HEIGHT, V_SPACING] at this ⊢
        omega
    | some el =>
      have hvel : validTree el = true := by
        simp only [validTree, Bool.and_eq_true] at hv
        tauto
      have he := He el rfl hvel
      refine ⟨?_, ?_⟩
      · show NODE_WIDTH ≤ subtreeW t + H_SPACING + subtreeW el
        have := ht.1
        have := he.1
        simp only [NODE_WIDTH, H_SPACING] at *
        omega
      · show NODE_HEIGHT ≤ NODE_HEIGHT + V_SPACING + max (subtreeH t) (subtreeH el)
        have h1 := ht.2
        have h2 := le_max_left (subtreeH t) (subtreeH el)
        simp only [NODE_HEIGHT, V_SPACING] at *
        omega
  · intro m cfg Hm hv
    simp only [validTree, Bool.and_eq_true] at hv
    have hm := Hm hv.2
    refine ⟨hm.1, ?_⟩
    show NODE_HEIGHT ≤ NODE_HEIGHT + V_SPACING + subtreeH m
    have := hm.2
    simp only [NODE_HEIGHT, V_SPACING] at this ⊢
    omega

end Skillixer
namespace Skillixer

/-! ## Claim C2 (corrected): the leaf constructor performs no validation -/

/-- Claim C2, counterexample: `skill` called with an empty name and empty
instruction text does not fail — it produces a SkillNode carrying the empty
strings, contradicting the claim that construction fails with a named error
and no node is produced. -/
theorem skill_empty_definition_counterexample :
    skill { name := "", description := none, instructions := "", metadata := none }
      = CompositionNode.skillNode
          { name := "", description := none, instructions := ""
            source := SkillSource.inline, metadata := none } := rfl

/-- Claim C2, amended: skill(def) performs no validation at all; for every
definition — including one with an empty name or empty instructions — it
returns (never raises) a SkillNode carrying the definition's name,
description and metadata unchanged, the trimmed instruction text, and inline
provenance. -/
theorem skill_constructs_without_validation :
    ∀ d : SkillDefinition,
      skill d = CompositionNode.skillNode
        { name := d.name, description := d.description
          instructions := jsTrim d.instructions
          source := SkillSource.inline, metadata := d.metadata } :=
  fun _ => rfl

/-! ## Claim C5 (confirmed): the composite constructors validate exactly the
§3 invariants and preserve child order -/

/-- Claim C5: pipe/parallel fail with the EmptyChildren error exactly on zero
children and otherwise return a node with the input child list unchanged;
fork fails with the MissingCondition error exactly on an empty condition,
with the MissingThenBranch error exactly when the condition is present but
the then-branch is absent, and otherwise returns the fork node with its
branches in place; hydrate fails with the EmptyHydrationConfig error exactly
on an empty config and otherwise wraps the node with that config. All are
pure functions returning fresh values. -/
theorem constructors_validate_iff :
    (∀ ns, (pipe ns = Except.error "pipe() requires at least one node" ↔ ns = []) ∧
      (ns ≠ [] → pipe ns = Except.ok (CompositionNode.pipeNode ns))) ∧
    (∀ ns, (parallel ns = Except.error "parallel() requires at least one node" ↔ ns = []) ∧
      (ns ≠ [] → parallel ns = Except.ok (CompositionNode.parallelNode ns))) ∧
    (∀ w t e, (fork w t e = Except.error "fork() requires a \"when\" condition" ↔ w = "") ∧
      (w ≠ "" → t = none → fork w t e = Except.error "fork() requires a \"then\" branch") ∧
      (∀ tb, w ≠ "" → t = some tb →
        fork w t e = Except.ok (CompositionNode.forkNode w tb e))) ∧
    (∀ n cfg, (hydrate n cfg = Except.error "hydrate() requires non-empty config" ↔
        cfg.keys = []) ∧
      (cfg.keys ≠ [] → hydrate n cfg = Except.ok (CompositionNode.hydrateNode n cfg))) := by
  refine ⟨fun ns => ⟨?_, ?_⟩, fun ns => ⟨?_, ?_⟩, fun w t e => ⟨?_, ?_, ?_⟩,
    fun n cfg => ⟨?_, ?_⟩⟩
  · constructor
    · intro h
      by_contra hne
      simp [pipe, List.length_eq_zero] at h
      exact hne h
    · intro h
      subst h
      rfl
  · intro h
    simp [pipe, List.length_eq_zero, h]
  · constructor
    · intro h
      by_contra hne
      simp [parallel, List.length_eq_zero] at h
      exact hne h
    · intro h
      subst h
      rfl
  · intro h
    simp [parallel, List.length_eq_zero, h]
  · constructor
    · intro h
      by_contra hne
      cases t <;> simp [fork, hne] at h
    · intro h
      subst h
      rfl
  · intro hw ht
    subst ht
    simp [fork, hw]
  · intro tb hw ht
    subst ht
    simp [fork, hw]
  · constructor
    · intro h
      by_contra hne
      simp [fork, hydrate, List.length_eq_zero, hne] at h
    · intro h
      simp [hydrate, List.length_eq_zero, h]
  · intro h
    simp [hydrate, List.length_eq_zero, h]

/-- Witness for `constructors_validate_iff` at concrete inputs: pipe with no
children fails, pipe with one child succeeds order-preservingly, fork with an
empty condition fails, fork without a then-branch fails, fork with both
succeeds, hydrate with an empty config fails, hydrate with `cfgA`
succeeds. -/
theorem constructors_validate_iff_witness :
    pipe [] = Except.error "pipe() requires at least one node" ∧
    pipe [leafAlpha, leafBeta]
      = Except.ok (CompositionNode.pipeNode [leafAlpha, leafBeta]) ∧
    parallel [] = Except.error "parallel() requires at least one node" ∧
    parallel [leafBeta, leafAlpha]
      = Except.ok (CompositionNode.parallelNode [leafBeta, leafAlpha]) ∧
    fork "" (some leafAlpha) none = Except.error "fork() requires a \"when\" condition" ∧
    fork "c" none none = Except.error "fork() requires a \"then\" branch" ∧
    fork "c" (some leafAlpha) (some leafBeta)
      = Except.ok (CompositionNode.forkNode "c" leafAlpha (some leafBeta)) ∧
    hydrate leafAlpha { ref := 9, keys := [] }
      = Except.error "hydrate() requires non-empty config" ∧
    hydrate leafAlpha cfgA = Except.ok (CompositionNode.hydrateNode leafAlpha cfgA) :=
  ⟨(constructors_validate_iff.1 []).1.mpr rfl,
   (constructors_validate_iff.1 [leafAlpha, leafBeta]).2 (by simp),
   (constructors_validate_iff.2.1 []).1.mpr rfl,
   (constructors_validate_iff.2.1 [leafBeta, leafAlpha]).2 (by simp),
   (constructors_validate_iff.2.2.1 "" (some leafAlpha) none).1.mpr rfl,
   (constructors_validate_iff.2.2.1 "c" none none).2.1 (by simp) rfl,
   (constructors_validate_iff.2.2.1 "c" (some leafAlpha) (some leafBeta)).2.2
     leafAlpha (by simp) rfl,
   (constructors_validate_iff.2.2.2 leafAlpha { ref := 9, keys := [] }).1.mpr rfl,
   (constructors_validate_iff.2.2.2 leafAlpha cfgA).2 (by simp [cfgA])⟩

/-! ## Claim C6 (confirmed): the depth computation -/

/-- On a non-empty child list, `depthListMax` is attained by a member and
bounds every member: it is the children's maximum depth. -/
theorem depthListMax_is_max (ns : List CompositionNode) (h : ns ≠ []) :
    ∃ c ∈ ns, depthListMax ns = calculateDepth c ∧
      ∀ m ∈ ns, calculateDepth m ≤ depthListMax ns := by
  induction ns with
  | nil => exact absurd rfl h
  | cons n rest ih =>
    cases rest with
    | nil =>
      refine ⟨n, by simp, by simp [depthListMax], ?_⟩
      intro m hm
      simp at hm
      subst hm
      simp [depthListMax]
    | cons m2 r2 =>
      obtain ⟨c, hc, hceq, hub⟩ := ih (by simp)
      rcases Nat.le_total (depthListMax (m2 :: r2)) (calculateDepth n) with hle | hle
      · refine ⟨n, by simp, ?_, ?_⟩
        · show max (calculateDepth n) (depthListMax (m2 :: r2)) = calculateDepth n
          omega
        · intro m hm
          show calculateDepth m ≤ max (calculateDepth n) (depthListMax (m2 :: r2))
          rcases List.mem_cons.mp hm with hm | hm
          · subst hm
            omega
          · have := hub m hm
            omega
      · refine ⟨c, List.mem_cons_of_mem _ hc, ?_, ?_⟩
        · show max (calculateDepth n) (depthListMax (m2 :: r2)) = calculateDepth c
          omega
        · intro m hm
          show calculateDepth m ≤ max (calculateDepth n) (depthListMax (m2 :: r2))
          rcases List.mem_cons.mp hm with hm | hm
          · subst hm
            omega
          · have := hub m hm
            omega

/-- Claim C6: the Describer's depth satisfies Leaf = 1; Sequence/Concurrent =
1 + maximum of the children's depths (stated as: 1 + the depth of a deepest
child) for the non-empty child lists the Model produces; Branch = 1 +
max(then-depth, else-depth or 0); Hydrated = its child's depth; and the
spec's concrete instance maxDepth(sequence(concurrent(leaf,leaf), leaf)) = 3,
also via describeAST. -/
theorem calculateDepth_spec :
    (∀ sk, calculateDepth (CompositionNode.skillNode sk) = 1) ∧
    (∀ ns, ns ≠ [] → ∃ c ∈ ns,
      calculateDepth (CompositionNode.pipeNode ns) = 1 + calculateDepth c ∧
      ∀ m ∈ ns, calculateDepth m ≤ calculateDepth c) ∧
    (∀ ns, ns ≠ [] → ∃ c ∈ ns,
      calculateDepth (CompositionNode.parallelNode ns) = 1 + calculateDepth c ∧
      ∀ m ∈ ns, calculateDepth m ≤ calculateDepth c) ∧
    (∀ w t el, calculateDepth (CompositionNode.forkNode w t (some el))
      = 1 + max (calculateDepth t) (calculateDepth el)) ∧
    (∀ w t, calculateDepth (CompositionNode.forkNode w t none)
      = 1 + max (calculateDepth t) 0) ∧
    (∀ n cfg, calculateDepth (CompositionNode.hydrateNode n cfg) = calculateDepth n) ∧
    (describeAST (CompositionNode.pipeNode
      [CompositionNode.parallelNode [leafAlpha, leafBeta], leafAlpha])).maxDepth = 3 := by
  refine ⟨fun sk => rfl, ?_, ?_, fun w t el => rfl, fun w t => rfl, fun n cfg => rfl,
    by decide⟩
  · intro ns h
    obtain ⟨c, hc, hceq, hub⟩ := depthListMax_is_max ns h
    exact ⟨c, hc, by simp [calculateDepth, hceq], fun m hm => hceq ▸ hub m hm⟩
  · intro ns h
    obtain ⟨c, hc, hceq, hub⟩ := depthListMax_is_max ns h
    exact ⟨c, hc, by simp [calculateDepth, hceq], fun m hm => hceq ▸ hub m hm⟩

/-- Witness for `calculateDepth_spec`: the pipe clause applied to the
two-leaf child list, where the children's maximum depth is realized. -/
theorem calculateDepth_spec_witness :
    ∃ c ∈ [leafAlpha, leafBeta],
      calculateDepth (CompositionNode.pipeNode [leafAlpha, leafBeta])
        = 1 + calculateDepth c ∧
      ∀ m ∈ [leafAlpha, leafBeta], calculateDepth m ≤ calculateDepth c :=
  calculateDepth_spec.2.1 [leafAlpha, leafBeta] (by simp)

/-! ## Claim C10 (confirmed): rendering an empty graph -/

/-- Claim C10: renderGraphToStrings on a graph with no positioned nodes
returns exactly the one-row placeholder message — not an empty array, not a
buffer sized to the bounding box. -/
theorem renderGraphToStrings_empty_graph :
    ∀ g : RenderedGraph, g.nodes = [] →
      renderGraphToStrings g
        = ["  No composition yet. Press \"s\" to inscribe a new spell."] := by
  intro g h
  simp [renderGraphToStrings, h]

/-- Witness for `renderGraphToStrings_empty_graph` at the layout of a null
root. -/
theorem renderGraphToStrings_empty_graph_witness :
    renderGraphToStrings (layoutComposition none none 0)
      = ["  No composition yet. Press \"s\" to inscribe a new spell."] :=
  renderGraphToStrings_empty_graph (layoutComposition none none 0) rfl

/-! ## Claim C1 (corrected): Hydrated nodes are NOT transparent to layout -/

/-- Claim C1, counterexample: laying out `hydrate(leaf, config)` produces TWO
boxes — the Hydrated node gets its own box at (0,0) — and the single child is
placed at (0,7), i.e. NODE_HEIGHT + V_SPACING below, not at the same (x,y);
the reported height is 12 = NODE_HEIGHT + V_SPACING + 5, not the child's
height 5 (the width 24 does equal the child's). -/
theorem layout_hydrated_counterexample :
    ((layoutComposition (some (CompositionNode.hydrateNode leafAlpha cfgA)) none 0).nodes.map
        (fun n => (n.type, n.x, n.y)))
      = [(NodeType.hydrate, 0, 0), (NodeType.skill, 0, 7)] ∧
    (layoutComposition (some (CompositionNode.hydrateNode leafAlpha cfgA)) none 0).height = 12 ∧
    (layoutComposition (some (CompositionNode.hydrateNode leafAlpha cfgA)) none 0).width = 24 ∧
    (layoutComposition (some leafAlpha) none 0).height = 5 := by
  decide

/-! ## Claim C3 (corrected): connectors of a two-leaf sequence -/

/-- Claim C3, counterexample: in the layout of sequence(A,B) with leaves A
("node-2") and B ("node-3") under the sequence box ("node-1"), the connector
list contains NO connector from A to B — it contains exactly two connectors,
parent→A and parent→B. -/
theorem sequence_connector_counterexample :
    ((layoutComposition (some (CompositionNode.pipeNode [leafAlpha, leafBeta])) none 0).nodes.map
        (fun n => (n.id, n.type)))
      = [("node-1", NodeType.pipe), ("node-2", NodeType.skill), ("node-3", NodeType.skill)] ∧
    ((layoutComposition (some (CompositionNode.pipeNode [leafAlpha, leafBeta])) none 0).connections.map
        (fun c => (c.fromId, c.toId)))
      = [("node-1", "node-2"), ("node-1", "node-3")] ∧
    ((layoutComposition (some (CompositionNode.pipeNode [leafAlpha, leafBeta])) none 0).connections.filter
        (fun c => c.fromId == "node-2" && c.toId == "node-3")).length = 0 := by
  decide

/-! ## Claim C4 (confirmed): skill records are unique per name and hydration
configs are deduplicated by object identity -/

/-- `updateFirstSkill` with a name-preserving update leaves the name list of
the records unchanged. -/
theorem updateFirstSkill_names (l : List SkillSummary) (nm : String)
    (f : SkillSummary → SkillSummary) (hf : ∀ s, (f s).name = s.name) :
    (updateFirstSkill l nm f).map (fun s => s.name) = l.map (fun s => s.name) := by
  induction l with
  | nil => rfl
  | cons s rest ih =>
    by_cases h : s.name == nm
    · simp [updateFirstSkill, h, hf]
    · simp [updateFirstSkill, h, ih]

/-- describeNode preserves the no-duplicate-names invariant of the recorded
skill list. -/
theorem describeNode_names_nodup :
    ∀ t : CompositionNode, ∀ hyds st,
      ((st.skills.map (fun s => s.name)).Nodup) →
      (((describeNode t hyds st).skills).map (fun s => s.name)).Nodup := by
  have main := compNode_ind (fun t => ∀ hyds st,
      ((st.skills.map (fun s => s.name)).Nodup) →
      (((describeNode t hyds st).skills).map (fun s => s.name)).Nodup)
  apply main
  · intro sk hyds st hnd
    simp only [describeNode]
    cases hfind : st.skills.find? (fun s => s.name == sk.name) with
    | some s0 =>
      simp only [hfind]
      rw [show (updateFirstSkill st.skills sk.name fun s =>
          { s with hydrations := mergeHydrations s.hydrations hyds }).map
            (fun s => s.name) = st.skills.map (fun s => s.name) from
        updateFirstSkill_names _ _ _ (fun s => rfl)]
      exact hnd
    | none =>
      simp only [hfind]
      have hnotin : sk.name ∉ st.skills.map (fun s => s.name) := by
        intro hmem
        obtain ⟨s, hs, hseq⟩ := List.mem_map.mp hmem
        have := List.find?_eq_none.mp hfind s hs
        simp [hseq] at this
      simp only [List.map_append, List.map_cons, List.map_nil]
      exact List.Nodup.append hnd (List.nodup_singleton _)
        (by simpa [List.disjoint_right] using hnotin)
  · intro ns H hyds st hnd
    simp only [describeNode]
    have hchild : ∀ ns2, (∀ c ∈ ns2, ∀ hyds st,
        ((st.skills.map (fun s => s.name)).Nodup) →
        (((describeNode c hyds st).skills).map (fun s => s.name)).Nodup) →
        ∀ st2, ((st2.skills.map (fun s => s.name)).Nodup) →
        (((describeChildren ns2 hyds st2).skills).map (fun s => s.name)).Nodup := by
      intro ns2 H2
      induction ns2 with
      | nil => intro st2 h2; exact h2
      | cons n rest ih =>
        intro st2 h2
        simp only [describeChildren]
        exact ih (fun c hc => H2 c (List.mem_cons_of_mem _ hc)) _
          (H2 n (List.mem_cons_self _ _) hyds st2 h2)
    exact hchild ns H _ (by simpa using hnd)
  · intro ns H hyds st hnd
    simp only [describeNode]
    have hchild : ∀ ns2, (∀ c ∈ ns2, ∀ hyds st,
        ((st.skills.map (fun s => s.name)).Nodup) →
        (((describeNode c hyds st).skills).map (fun s => s.name)).Nodup) →
        ∀ st2, ((st2.skills.map (fun s => s.name)).Nodup) →
        (((describeChildren ns2 hyds st2).skills).map (fun s => s.name)).Nodup := by
      intro ns2 H2
      induction ns2 with
      | nil => intro st2 h2; exact h2
      | cons n rest ih =>
        intro st2 h2
        simp only [describeChildren]
        exact ih (fun c hc => H2 c (List.mem_cons_of_mem _ hc)) _
          (H2 n (List.mem_cons_self _ _) hyds st2 h2)
    exact hchild ns H _ (by simpa using hnd)
  · intro w t e Ht He hyds st hnd
    cases e with
    | none =>
      simp only [describeNode]
      exact Ht hyds _ (by simpa using hnd)
    | some el =>
      simp only [describeNode]
      exact He el rfl hyds _ (Ht hyds _ (by simpa using hnd))
  · intro m cfg Hm hyds st hnd
    simp only [describeNode]
    exact Hm _ _ (by simpa using hnd)

/-- Claim C4: the Describer records at most one skill entry per distinct name
(the recorded names are always pairwise distinct), deduplicates a skill's
hydration configs by object identity — the same config object reaching the
skill twice is kept once, while two distinct config objects with identical
keys are both kept — and a first encounter copies the currently active
hydration list into the new record. -/
theorem describer_skill_records :
    (∀ t, (((describeAST t).skills).map (fun s => s.name)).Nodup) ∧
    (describeAST (CompositionNode.pipeNode
        [CompositionNode.hydrateNode leafAlpha cfgA,
         CompositionNode.hydrateNode leafAlpha cfgB])).skills
      = [{ name := "alpha", description := none, instructions := "do alpha"
           hydrations := [cfgA, cfgB] }] ∧
    (describeAST (CompositionNode.pipeNode
        [CompositionNode.hydrateNode leafAlpha cfgA,
         CompositionNode.hydrateNode leafAlpha cfgA])).skills
      = [{ name := "alpha", description := none, instructions := "do alpha"
           hydrations := [cfgA] }] ∧
    (describeAST (CompositionNode.hydrateNode leafAlpha cfgA)).skills
      = [{ name := "alpha", description := none, instructions := "do alpha"
           hydrations := [cfgA] }] := by
  refine ⟨fun t => ?_, by decide, by decide, by decide⟩
  exact describeNode_names_nodup t [] { skills := [], patterns := [] } (by simp)

/-- The node count of a laid-out graph equals the AST node count (shared by
the totality and rendering claims). -/
theorem layoutComposition_nodes_length (t : CompositionNode) (sel : Option String)
    (counter : Nat) :
    (layoutComposition (some t) sel counter).nodes.length = countNodes t := by
  obtain ⟨hcnt, ⟨rest, hns, hlen⟩, _⟩ :=
    layoutNode_spec t 0 0 none sel ⟨counter, [], []⟩
  show (layoutNode t 0 0 none sel ⟨counter, [], []⟩).st.nodes.length = countNodes t
  rw [hns]
  show ([] ++ (layoutNode t 0 0 none sel ⟨counter, [], []⟩).node :: rest).length = countNodes t
  simp only [List.nil_append, List.length_cons]
  omega

/-- The bounding width of a laid-out graph is the root's pure subtree
width. -/
theorem layoutComposition_width (t : CompositionNode) (sel : Option String)
    (counter : Nat) :
    (layoutComposition (some t) sel counter).width = subtreeW t := by
  show (layoutNode t 0 0 none sel ⟨counter, [], []⟩).width = subtreeW t
  exact (layoutNode_spec t 0 0 none sel _).2.2.2.1

/-! ## Claim C8 (confirmed): the Layout Engine is total and null is a no-op -/

/-- Claim C8: layoutComposition of a null root is the empty graph (zero
nodes, zero connectors, width 0, height 0), for every selection and every
ambient counter value; and on every tree the Model's closed node type can
form, layout completes and positions exactly one box per AST node (the
embedding is a total function — the source has no throw in this path — and
the node count witnesses that the whole tree is processed). -/
theorem layoutComposition_total :
    (∀ sel counter, layoutComposition none sel counter
      = { nodes := [], connections := [], width := 0, height := 0 }) ∧
    (∀ t sel counter,
      (layoutComposition (some t) sel counter).nodes.length = countNodes t) := by
  exact ⟨fun sel counter => rfl, fun t sel counter => layoutComposition_nodes_length t sel counter⟩

/-! ## Claim C1 amended: how Hydrated nodes actually lay out -/

/-- Claim C1, amended: for every Hydrated node laid out at (x,y), the
Hydrated node contributes its own box (type `hydrate`) at exactly (x,y); its
single child subtree is laid out directly below, its root box at
(x, y + NODE_HEIGHT + V_SPACING); the width the Hydrated node reports upward
equals its child's computed width, while the height it reports is
NODE_HEIGHT + V_SPACING plus the child's computed height. -/
theorem layout_hydrated_amended :
    ∀ (n : CompositionNode) (cfg : HydrationConfig) (x y : Int)
      (pid sel : Option String) (st : LayoutState),
      (layoutNode (CompositionNode.hydrateNode n cfg) x y pid sel st).node.x = x ∧
      (layoutNode (CompositionNode.hydrateNode n cfg) x y pid sel st).node.y = y ∧
      (layoutNode (CompositionNode.hydrateNode n cfg) x y pid sel st).node.type
        = NodeType.hydrate ∧
      (layoutNode (CompositionNode.hydrateNode n cfg) x y pid sel st).width
        = subtreeW n ∧
      (layoutNode (CompositionNode.hydrateNode n cfg) x y pid sel st).height
        = NODE_HEIGHT + V_SPACING + subtreeH n ∧
      (∃ rest, (layoutNode (CompositionNode.hydrateNode n cfg) x y pid sel st).st.nodes
          = st.nodes
            ++ (layoutNode (CompositionNode.hydrateNode n cfg) x y pid sel st).node :: rest ∧
        (rest.head?.map (fun b => (b.x, b.y, b.width, b.height)))
          = some (x, y + NODE_HEIGHT + V_SPACING, NODE_WIDTH, NODE_HEIGHT)) := by
  intro n cfg x y pid sel st
  obtain ⟨hnode, hcnt, hnodes, cs0, hcs0⟩ :=
    pushNode_spec st (CompositionNode.hydrateNode n cfg) x y pid sel
  obtain ⟨mcnt, ⟨r1, mns, mlen⟩, ⟨cs1, mcs⟩, mw, mh⟩ :=
    layoutNode_spec n x (y + NODE_HEIGHT + V_SPACING)
      (some (pushNode st (CompositionNode.hydrateNode n cfg) x y pid sel).2.id) sel
      (pushNode st (CompositionNode.hydrateNode n cfg) x y pid sel).1
  have hu : layoutNode (CompositionNode.hydrateNode n cfg) x y pid sel st
      = ⟨(layoutNode n x (y + NODE_HEIGHT + V_SPACING)
            (some (pushNode st (CompositionNode.hydrateNode n cfg) x y pid sel).2.id) sel
            (pushNode st (CompositionNode.hydrateNode n cfg) x y pid sel).1).st,
         (pushNode st (CompositionNode.hydrateNode n cfg) x y pid sel).2,
         (layoutNode n x (y + NODE_HEIGHT + V_SPACING)
            (some (pushNode st (CompositionNode.hydrateNode n cfg) x y pid sel).2.id) sel
            (pushNode st (CompositionNode.hydrateNode n cfg) x y pid sel).1).width,
         NODE_HEIGHT + V_SPACING +
         (layoutNode n x (y + NODE_HEIGHT + V_SPACING)
            (some (pushNode st (CompositionNode.hydrateNode n cfg) x y pid sel).2.id) sel
            (pushNode st (CompositionNode.hydrateNode n cfg) x y pid sel).1).height⟩ := rfl
  rw [hu]
  refine ⟨?_, ?_, ?_, ?_, ?_, ?_⟩
  · dsimp only
    rw [hnode]
    exact (mkBox_fields _ _ _ _ _).1
  · dsimp only
    rw [hnode]
    exact (mkBox_fields _ _ _ _ _).2.1
  · dsimp only
    rw [hnode]
    exact (mkBox_fields _ _ _ _ _).2.2.2.2.2
  · dsimp only
    rw [mw]
  · dsimp only
    rw [mh]
  · refine ⟨(layoutNode n x (y + NODE_HEIGHT + V_SPACING)
      (some (pushNode st (CompositionNode.hydrateNode n cfg) x y pid sel).2.id) sel
      (pushNode st (CompositionNode.hydrateNode n cfg) x y pid sel).1).node :: r1, ?_, ?_⟩
    · dsimp only
      rw [mns, hnodes, hnode]
      simp
    · simp only [List.head?_cons, Option.map_some]
      rw [layoutNode_node]
      rfl


/-! ## Claim C9 (confirmed): rendered rows all have length width + margin -/

/-- A foldl preserves any invariant its step preserves. -/
theorem foldl_preserves {α β : Type} (P : β → Prop) (f : β → α → β) :
    ∀ (l : List α) (b : β), P b → (∀ acc a, P acc → P (f acc a)) → P (l.foldl f b) := by
  intro l
  induction l with
  | nil => intro b hb _; exact hb
  | cons a r ih =>
    intro b hb hstep
    exact ih (f b a) (hstep b a hb) hstep

/-- setCell preserves the all-rows-have-length-cols invariant of the buffer. -/
theorem setCell_row_lengths (buf : List (List Char)) (y x : Int) (c : Char)
    (cols : Nat) (h : ∀ row ∈ buf, row.length = cols) :
    ∀ row ∈ setCell buf y x c, row.length = cols := by
  intro row hrow
  unfold setCell at hrow
  split at hrow
  · by_cases hy : y.toNat < buf.length
    · rcases List.mem_or_eq_of_mem_set hrow with hmem | heq
      · exact h row hmem
      · subst heq
        rw [List.length_set]
        rw [List.getD_eq_getElem _ _ hy]
        exact h _ (List.getElem_mem hy)
    · rw [List.set_eq_of_length_le (Nat.le_of_not_lt hy)] at hrow
      exact h row hrow
  · exact h row hrow

/-- In the non-empty case, every row of the rendered buffer has exactly
(width + 3) characters: the buffer is allocated at that width and each cell
write preserves row lengths. -/
theorem renderGraphToStrings_row_lengths (g : RenderedGraph) (h : g.nodes ≠ []) :
    ∀ r ∈ renderGraphToStrings g, r.length = (g.width + 3).toNat := by
  intro r hr
  have hne : ¬(g.nodes.isEmpty = true) := by
    simp only [List.isEmpty_iff]
    exact h
  unfold renderGraphToStrings at hr
  rw [if_neg hne] at hr
  dsimp only at hr
  obtain ⟨row, hrow, rfl⟩ := List.mem_map.mp hr
  show row.length = (g.width + 3).toNat
  clear hr
  revert row hrow
  refine foldl_preserves (fun (buf : List (List Char)) => ∀ rr ∈ buf, rr.length = (g.width + 3).toNat)
    _ _ _ ?_ ?_
  · refine foldl_preserves (fun (buf : List (List Char)) => ∀ rr ∈ buf, rr.length = (g.width + 3).toNat)
      _ _ _ ?_ ?_
    · intro rr hrr
      rw [List.eq_of_mem_replicate hrr]
      exact List.length_replicate _ _
    · intro acc conn hacc
      exact foldl_preserves (fun (buf : List (List Char)) => ∀ rr ∈ buf, rr.length = (g.width + 3).toNat)
        _ _ _ hacc (fun b p hb => setCell_row_lengths b p.y p.x p.char _ hb)
  · intro acc node hacc
    refine foldl_preserves (fun (buf : List (List Char)) => ∀ rr ∈ buf, rr.length = (g.width + 3).toNat)
      _ _ _ hacc ?_
    intro b ly hb
    exact foldl_preserves (fun (buf : List (List Char)) => ∀ rr ∈ buf, rr.length = (g.width + 3).toNat)
      _ _ _ hb (fun b2 lx hb2 => setCell_row_lengths b2 _ _ _ _ hb2)

/-- Claim C9: for every Model-producible tree, every output row of
render-to-buffer on its layout has the same length, namely the graph's
bounding width plus the fixed 3-cell margin (so no row exceeds width +
margin). -/
theorem render_rows_equal_length :
    ∀ (t : CompositionNode) (sel : Option String) (counter : Nat),
      validTree t = true →
      ∀ r ∈ renderGraphToStrings (layoutComposition (some t) sel counter),
        (r.length : Int) = (layoutComposition (some t) sel counter).width + 3 := by
  intro t sel counter hv r hr
  have hnodes_ne : (layoutComposition (some t) sel counter).nodes ≠ [] := by
    intro h0
    have hlen := layoutComposition_nodes_length t sel counter
    rw [h0] at hlen
    have := countNodes_pos t
    simp at hlen
    omega
  have hlens := renderGraphToStrings_row_lengths _ hnodes_ne r hr
  rw [hlens]
  have h24 := (subtree_dims_lower t hv).1
  rw [layoutComposition_width t sel counter] at *
  have hnn : (0 : Int) ≤ subtreeW t + 3 := by
    simp only [NODE_WIDTH] at h24
    omega
  rw [Int.toNat_of_nonneg hnn]

/-- Witness for `render_rows_equal_length`: the first row of a rendered
single-leaf layout has length 27 = 24 + 3. -/
theorem render_rows_equal_length_witness :
    (((renderGraphToStrings (layoutComposition (some leafAlpha) none 0)).headD "").length : Int)
      = (layoutComposition (some leafAlpha) none 0).width + 3 :=
  render_rows_equal_length leafAlpha none 0 (by decide) _ (by decide)


/-! ## Claim C7 (confirmed): Concurrent children form one row -/

/-- The width-advance over `take (k+1)` children adds the k-th child's
subtree width plus the horizontal spacing. -/
theorem sumOfWidths_take_succ (ns : List CompositionNode) :
    ∀ (k : Nat) (hk : k < ns.length),
      sumOfWidths (ns.take (k + 1))
        = sumOfWidths (ns.take k) + subtreeW (ns.get ⟨k, hk⟩) + H_SPACING := by
  induction ns with
  | nil => intro k hk; exact absurd hk (by simp)
  | cons n rest ih =>
    intro k hk
    cases k with
    | zero =>
      show sumOfWidths [n] = sumOfWidths [] + subtreeW n + H_SPACING
      show subtreeW n + H_SPACING + sumOfWidths [] = sumOfWidths [] + subtreeW n + H_SPACING
      show subtreeW n + H_SPACING + 0 = 0 + subtreeW n + H_SPACING
      ring
    | succ k =>
      have hk2 : k < rest.length := by simpa using hk
      rw [List.take_succ_cons, List.take_succ_cons]
      show subtreeW n + H_SPACING + sumOfWidths (rest.take (k + 1))
        = subtreeW n + H_SPACING + sumOfWidths (rest.take k)
          + subtreeW ((n :: rest).get ⟨k + 1, hk⟩) + H_SPACING
      rw [ih k hk2]
      show subtreeW n + H_SPACING
          + (sumOfWidths (rest.take k) + subtreeW (rest.get ⟨k, hk2⟩) + H_SPACING)
        = subtreeW n + H_SPACING + sumOfWidths (rest.take k)
          + subtreeW (rest.get ⟨k, hk2⟩) + H_SPACING
      ring

/-- The node-count over `take (k+1)` children adds the k-th child's count. -/
theorem countList_take_succ (ns : List CompositionNode) :
    ∀ (k : Nat) (hk : k < ns.length),
      countList (ns.take (k + 1))
        = countList (ns.take k) + countNodes (ns.get ⟨k, hk⟩) := by
  induction ns with
  | nil => intro k hk; exact absurd hk (by simp)
  | cons n rest ih =>
    intro k hk
    cases k with
    | zero =>
      show countList [n] = countList [] + countNodes n
      show countNodes n + countList [] = countList [] + countNodes n
      show countNodes n + 0 = 0 + countNodes n
      omega
    | succ k =>
      have hk2 : k < rest.length := by simpa using hk
      rw [List.take_succ_cons, List.take_succ_cons]
      show countNodes n + countList (rest.take (k + 1))
        = countNodes n + countList (rest.take k)
          + countNodes ((n :: rest).get ⟨k + 1, hk⟩)
      rw [ih k hk2]
      show countNodes n + (countList (rest.take k) + countNodes (rest.get ⟨k, hk2⟩))
        = countNodes n + countList (rest.take k) + countNodes (rest.get ⟨k, hk2⟩)
      omega

/-- The parallel x-advance equals the sum of the child widths plus one
spacing per child. -/
theorem sumOfWidths_eq_sum (ns : List CompositionNode) :
    sumOfWidths ns = (ns.map subtreeW).sum + H_SPACING * (ns.length : Int) := by
  induction ns with
  | nil => simp [sumOfWidths]
  | cons n rest ih =>
    show subtreeW n + H_SPACING + sumOfWidths rest = _
    rw [ih]
    simp only [List.map_cons, List.sum_cons, List.length_cons]
    push_cast
    ring

/-- Each child's root box of a parallel-children loop is present in the
final node list, at the accumulated x offset, in the common row, with the
id determined by the id counter. -/
theorem layoutParallelChildren_boxes (ns : List CompositionNode)
    (H : ∀ c ∈ ns, LayoutNodeSpec c) :
    ∀ (cx cy : Int) (pid : String) (sel : Option String) (st : LayoutState)
      (mh : Int) (k : Nat) (hk : k < ns.length),
      ∃ b ∈ (layoutParallelChildren ns cx cy pid sel st mh).1.nodes,
        b = mkBox (ns.get ⟨k, hk⟩) (cx + sumOfWidths (ns.take k)) cy
          (st.counter + countList (ns.take k)) sel := by
  induction ns with
  | nil => intro cx cy pid sel st mh k hk; exact absurd hk (by simp)
  | cons n rest ih =>
    intro cx cy pid sel st mh k hk
    obtain ⟨hcnt, ⟨r1, hns, hlen⟩, -, hw, -⟩ :=
      H n (List.mem_cons_self _ _) cx cy (some pid) sel st
    have hunfold : layoutParallelChildren (n :: rest) cx cy pid sel st mh
        = layoutParallelChildren rest
            (cx + (layoutNode n cx cy (some pid) sel st).width + H_SPACING) cy pid sel
            (layoutNode n cx cy (some pid) sel st).st
            (max mh (layoutNode n cx cy (some pid) sel st).height) := rfl
    rw [hunfold]
    cases k with
    | zero =>
      obtain ⟨-, ⟨new2, inodes, -⟩, -, -, -⟩ :=
        layoutParallelChildren_spec rest (fun c hc => H c (List.mem_cons_of_mem _ hc))
          (cx + (layoutNode n cx cy (some pid) sel st).width + H_SPACING) cy pid sel
          (layoutNode n cx cy (some pid) sel st).st
          (max mh (layoutNode n cx cy (some pid) sel st).height)
      refine ⟨(layoutNode n cx cy (some pid) sel st).node, ?_, ?_⟩
      · rw [inodes, hns]
        simp
      · rw [layoutNode_node]
        show mkBox n cx cy st.counter sel
          = mkBox n (cx + sumOfWidths []) cy (st.counter + countList []) sel
        show mkBox n cx cy st.counter sel
          = mkBox n (cx + 0) cy (st.counter + 0) sel
        rw [add_zero, Nat.add_zero]
    | succ k =>
      have hk2 : k < rest.length := by simpa using hk
      obtain ⟨b, hbmem, hbeq⟩ := ih (fun c hc => H c (List.mem_cons_of_mem _ hc))
        (cx + (layoutNode n cx cy (some pid) sel st).width + H_SPACING) cy pid sel
        (layoutNode n cx cy (some pid) sel st).st
        (max mh (layoutNode n cx cy (some pid) sel st).height) k hk2
      refine ⟨b, hbmem, ?_⟩
      rw [hbeq, hw, hcnt]
      have hget : (n :: rest).get ⟨k + 1, hk⟩ = rest.get ⟨k, hk2⟩ := rfl
      have hsum : sumOfWidths ((n :: rest).take (k + 1))
          = subtreeW n + H_SPACING + sumOfWidths (rest.take k) := by
        rw [List.take_succ_cons]
        rfl
      have hcnt2 : countList ((n :: rest).take (k + 1))
          = countNodes n + countList (rest.take k) := by
        rw [List.take_succ_cons]
        rfl
      rw [hget, hsum, hcnt2]
      have hx : cx + subtreeW n + H_SPACING + sumOfWidths (rest.take k)
          = cx + (subtreeW n + H_SPACING + sumOfWidths (rest.take k)) := by ring
      have hc : st.counter + countNodes n + countList (rest.take k)
          = st.counter + (countNodes n + countList (rest.take k)) := by omega
      rw [hx, hc]

/-- Claim C7: laying out a Concurrent node places its children's root boxes
in one row below the node, left to right: child k's box sits at
(x + Σ_{i<k}(wᵢ + spacing), y + NODE_HEIGHT + V_SPACING) — so any two
successive children A, B satisfy A.y = B.y and B.x > A.x + A.width (the
offsets advance by a full subtree width ≥ box width plus spacing) — and the
Concurrent node's computed width is Σ(child widths) + spacing×(n−1), which
equals its clipped form max(own box width, Σ + spacing×(n−1)). -/
theorem layout_concurrent_row :
    ∀ (ns : List CompositionNode) (x y : Int) (pid sel : Option String)
      (st : LayoutState),
      validTree (CompositionNode.parallelNode ns) = true →
      (∀ (k : Nat) (hk : k < ns.length),
        ∃ b ∈ (layoutNode (CompositionNode.parallelNode ns) x y pid sel st).st.nodes,
          b.x = x + sumOfWidths (ns.take k) ∧
          b.y = y + NODE_HEIGHT + V_SPACING ∧
          b.width = NODE_WIDTH ∧ b.height = NODE_HEIGHT ∧
          b.id = "node-" ++ toString (st.counter + 2 + countList (ns.take k)) ∧
          b.type = getNodeType (ns.get ⟨k, hk⟩)) ∧
      (∀ (k : Nat), k < ns.length →
        x + sumOfWidths (ns.take (k + 1)) > (x + sumOfWidths (ns.take k)) + NODE_WIDTH) ∧
      (layoutNode (CompositionNode.parallelNode ns) x y pid sel st).width
        = (ns.map subtreeW).sum + H_SPACING * ((ns.length : Int) - 1) ∧
      (layoutNode (CompositionNode.parallelNode ns) x y pid sel st).width
        = max NODE_WIDTH ((ns.map subtreeW).sum + H_SPACING * ((ns.length : Int) - 1)) := by
  intro ns x y pid sel st hv
  have hvmem : ∀ c ∈ ns, validTree c = true := by
    simp only [validTree, Bool.and_eq_true] at hv
    exact (validList_iff ns).mp hv.2
  have hne : ns ≠ [] := by
    simp only [validTree, Bool.and_eq_true] at hv
    intro h0
    rw [h0] at hv
    simp at hv
  have hlen1 : 1 ≤ (ns.length : Int) := by
    cases ns with
    | nil => exact absurd rfl hne
    | cons a l =>
      simp only [List.length_cons]
      have : (0 : Int) ≤ (l.length : Int) := Int.natCast_nonneg _
      push_cast
      omega
  have hu : layoutNode (CompositionNode.parallelNode ns) x y pid sel st
      = ⟨(layoutParallelChildren ns x (y + NODE_HEIGHT + V_SPACING)
            (pushNode st (CompositionNode.parallelNode ns) x y pid sel).2.id sel
            (pushNode st (CompositionNode.parallelNode ns) x y pid sel).1 0).1,
         (pushNode st (CompositionNode.parallelNode ns) x y pid sel).2,
         (layoutParallelChildren ns x (y + NODE_HEIGHT + V_SPACING)
            (pushNode st (CompositionNode.parallelNode ns) x y pid sel).2.id sel
            (pushNode st (CompositionNode.parallelNode ns) x y pid sel).1 0).2.1
           - x - H_SPACING,
         NODE_HEIGHT + V_SPACING +
         (layoutParallelChildren ns x (y + NODE_HEIGHT + V_SPACING)
            (pushNode st (CompositionNode.parallelNode ns) x y pid sel).2.id sel
            (pushNode st (CompositionNode.parallelNode ns) x y pid sel).1 0).2.2⟩ := rfl
  have hwidth : (layoutNode (CompositionNode.parallelNode ns) x y pid sel st).width
      = sumOfWidths ns - H_SPACING := by
    exact (layoutNode_spec (CompositionNode.parallelNode ns) x y pid sel st).2.2.2.1
  refine ⟨?_, ?_, ?_, ?_⟩
  · intro k hk
    obtain ⟨b, hbmem, hbeq⟩ := layoutParallelChildren_boxes ns
      (fun c _ => layoutNode_spec c) x (y + NODE_HEIGHT + V_SPACING)
      (pushNode st (CompositionNode.parallelNode ns) x y pid sel).2.id sel
      (pushNode st (CompositionNode.parallelNode ns) x y pid sel).1 0 k hk
    refine ⟨b, ?_, ?_, ?_, ?_, ?_, ?_, ?_⟩
    · rw [hu]
      exact hbmem
    · rw [hbeq]
      exact (mkBox_fields _ _ _ _ _).1
    · rw [hbeq]
      exact (mkBox_fields _ _ _ _ _).2.1
    · rw [hbeq]
      exact (mkBox_fields _ _ _ _ _).2.2.1
    · rw [hbeq]
      exact (mkBox_fields _ _ _ _ _).2.2.2.1
    · rw [hbeq]
      have hid := (mkBox_fields (ns.get ⟨k, hk⟩) (x + sumOfWidths (ns.take k))
        (y + NODE_HEIGHT + V_SPACING)
        ((pushNode st (CompositionNode.parallelNode ns) x y pid sel).1.counter
          + countList (ns.take k)) sel).2.2.2.2.1
      rw [hid]
      have : (pushNode st (CompositionNode.parallelNode ns) x y pid sel).1.counter
          + countList (ns.take k) + 1 = st.counter + 2 + countList (ns.take k) := by
        have hc : (pushNode st (CompositionNode.parallelNode ns) x y pid sel).1.counter
            = st.counter + 1 := rfl
        omega
      rw [this]
    · rw [hbeq]
      exact (mkBox_fields _ _ _ _ _).2.2.2.2.2
  · intro k hk
    rw [sumOfWidths_take_succ ns k hk]
    have hge := (subtree_dims_lower (ns.get ⟨k, hk⟩)
      (hvmem _ (List.get_mem ns _ _))).1
    simp only [NODE_WIDTH, H_SPACING] at hge ⊢
    omega
  · rw [hwidth, sumOfWidths_eq_sum]
    ring
  · rw [hwidth, sumOfWidths_eq_sum]
    have hsum_lower : (NODE_WIDTH + H_SPACING) * (ns.length : Int) ≤ sumOfWidths ns :=
      sumOfWidths_lower ns (fun c hc => (subtree_dims_lower c (hvmem c hc)).1)
    rw [sumOfWidths_eq_sum] at hsum_lower
    have h24 : NODE_WIDTH ≤ (ns.map subtreeW).sum + H_SPACING * ((ns.length : Int) - 1) := by
      simp only [NODE_WIDTH, H_SPACING] at hsum_lower hlen1 ⊢
      omega
    rw [max_eq_right h24]
    ring

/-- Witness for `layout_concurrent_row` at a two-leaf Concurrent node laid
out from a fresh state: the second child's root box. -/
theorem layout_concurrent_row_witness :
    ∃ b ∈ (layoutNode (CompositionNode.parallelNode [leafAlpha, leafBeta])
        0 0 none none ⟨0, [], []⟩).st.nodes,
      b.x = 0 + sumOfWidths ([leafAlpha, leafBeta].take 1) ∧
      b.y = 0 + NODE_HEIGHT + V_SPACING ∧
      b.width = NODE_WIDTH ∧ b.height = NODE_HEIGHT ∧
      b.id = "node-" ++ toString (0 + 2 + countList ([leafAlpha, leafBeta].take 1)) ∧
      b.type = getNodeType ([leafAlpha, leafBeta].get ⟨1, by decide⟩) :=
  (layout_concurrent_row [leafAlpha, leafBeta] 0 0 none none ⟨0, [], []⟩
    (by decide)).1 1 (by decide)


/-! ## Claim C3 amended: connectors of a two-leaf sequence, exactly -/

/-- The full layout of sequence(A,B) over two leaves from a fresh nodes
array: the sequence box at (0,0), A's box at (0,7), B's box at (0,14)
(so B sits strictly below A's box), and exactly the two connectors
parent→A and parent→B. -/
theorem layout_sequence_two_leaves (sa sb : Skill) (sel : Option String)
    (counter : Nat) :
    layoutComposition (some (CompositionNode.pipeNode [CompositionNode.skillNode sa, CompositionNode.skillNode sb])) sel counter
      = { nodes := [(mkBox (CompositionNode.pipeNode [CompositionNode.skillNode sa, CompositionNode.skillNode sb]) 0 0 counter sel), (mkBox (CompositionNode.skillNode sa) 0 7 (counter + 1) sel), (mkBox (CompositionNode.skillNode sb) 0 14 (counter + 2) sel)],
          connections := [(createConnection (mkBox (CompositionNode.pipeNode [CompositionNode.skillNode sa, CompositionNode.skillNode sb]) 0 0 counter sel) (mkBox (CompositionNode.skillNode sa) 0 7 (counter + 1) sel)), (createConnection (mkBox (CompositionNode.pipeNode [CompositionNode.skillNode sa, CompositionNode.skillNode sb]) 0 0 counter sel) (mkBox (CompositionNode.skillNode sb) 0 14 (counter + 2) sel))],
          width := 24, height := 19 } := by
  have hpush0 : (pushNode (⟨counter, [], []⟩ : LayoutState) (CompositionNode.pipeNode [CompositionNode.skillNode sa, CompositionNode.skillNode sb]) 0 0 none sel) = ((⟨counter + 1, [(mkBox (CompositionNode.pipeNode [CompositionNode.skillNode sa, CompositionNode.skillNode sb]) 0 0 counter sel)], []⟩ : LayoutState), (mkBox (CompositionNode.pipeNode [CompositionNode.skillNode sa, CompositionNode.skillNode sb]) 0 0 counter sel)) := rfl
  have hfindA : (([(mkBox (CompositionNode.pipeNode [CompositionNode.skillNode sa, CompositionNode.skillNode sb]) 0 0 counter sel)] ++ [(mkBox (CompositionNode.skillNode sa) 0 7 (counter + 1) sel)]).find? (fun n => n.id == (mkBox (CompositionNode.pipeNode [CompositionNode.skillNode sa, CompositionNode.skillNode sb]) 0 0 counter sel).id)) = some (mkBox (CompositionNode.pipeNode [CompositionNode.skillNode sa, CompositionNode.skillNode sb]) 0 0 counter sel) := by
    simp only [List.cons_append, List.nil_append]
    exact List.find?_cons_of_pos _ (beq_self_eq_true _)
  have hpushA : pushNode (⟨counter + 1, [(mkBox (CompositionNode.pipeNode [CompositionNode.skillNode sa, CompositionNode.skillNode sb]) 0 0 counter sel)], []⟩ : LayoutState) (CompositionNode.skillNode sa) 0 7 (some (mkBox (CompositionNode.pipeNode [CompositionNode.skillNode sa, CompositionNode.skillNode sb]) 0 0 counter sel).id) sel = ((⟨counter + 2, [(mkBox (CompositionNode.pipeNode [CompositionNode.skillNode sa, CompositionNode.skillNode sb]) 0 0 counter sel), (mkBox (CompositionNode.skillNode sa) 0 7 (counter + 1) sel)], [(createConnection (mkBox (CompositionNode.pipeNode [CompositionNode.skillNode sa, CompositionNode.skillNode sb]) 0 0 counter sel) (mkBox (CompositionNode.skillNode sa) 0 7 (counter + 1) sel))]⟩ : LayoutState), (mkBox (CompositionNode.skillNode sa) 0 7 (counter + 1) sel)) := by
    unfold pushNode
    dsimp only
    rw [hfindA]
    rfl
  have hA : (layoutNode (CompositionNode.skillNode sa) 0 7 (some (mkBox (CompositionNode.pipeNode [CompositionNode.skillNode sa, CompositionNode.skillNode sb]) 0 0 counter sel).id) sel (⟨counter + 1, [(mkBox (CompositionNode.pipeNode [CompositionNode.skillNode sa, CompositionNode.skillNode sb]) 0 0 counter sel)], []⟩ : LayoutState)) = ⟨(⟨counter + 2, [(mkBox (CompositionNode.pipeNode [CompositionNode.skillNode sa, CompositionNode.skillNode sb]) 0 0 counter sel), (mkBox (CompositionNode.skillNode sa) 0 7 (counter + 1) sel)], [(createConnection (mkBox (CompositionNode.pipeNode [CompositionNode.skillNode sa, CompositionNode.skillNode sb]) 0 0 counter sel) (mkBox (CompositionNode.skillNode sa) 0 7 (counter + 1) sel))]⟩ : LayoutState), (mkBox (CompositionNode.skillNode sa) 0 7 (counter + 1) sel), NODE_WIDTH, NODE_HEIGHT⟩ := by
    show (⟨(pushNode (⟨counter + 1, [(mkBox (CompositionNode.pipeNode [CompositionNode.skillNode sa, CompositionNode.skillNode sb]) 0 0 counter sel)], []⟩ : LayoutState) (CompositionNode.skillNode sa) 0 7 (some (mkBox (CompositionNode.pipeNode [CompositionNode.skillNode sa, CompositionNode.skillNode sb]) 0 0 counter sel).id) sel).1,
           (pushNode (⟨counter + 1, [(mkBox (CompositionNode.pipeNode [CompositionNode.skillNode sa, CompositionNode.skillNode sb]) 0 0 counter sel)], []⟩ : LayoutState) (CompositionNode.skillNode sa) 0 7 (some (mkBox (CompositionNode.pipeNode [CompositionNode.skillNode sa, CompositionNode.skillNode sb]) 0 0 counter sel).id) sel).2,
           NODE_WIDTH, NODE_HEIGHT⟩ : LayoutResult) = _
    rw [hpushA]
  have hfindB : (([(mkBox (CompositionNode.pipeNode [CompositionNode.skillNode sa, CompositionNode.skillNode sb]) 0 0 counter sel), (mkBox (CompositionNode.skillNode sa) 0 7 (counter + 1) sel)] ++ [(mkBox (CompositionNode.skillNode sb) 0 14 (counter + 2) sel)]).find? (fun n => n.id == (mkBox (CompositionNode.pipeNode [CompositionNode.skillNode sa, CompositionNode.skillNode sb]) 0 0 counter sel).id)) = some (mkBox (CompositionNode.pipeNode [CompositionNode.skillNode sa, CompositionNode.skillNode sb]) 0 0 counter sel) := by
    simp only [List.cons_append, List.nil_append]
    exact List.find?_cons_of_pos _ (beq_self_eq_true _)
  have hpushB : pushNode (⟨counter + 2, [(mkBox (CompositionNode.pipeNode [CompositionNode.skillNode sa, CompositionNode.skillNode sb]) 0 0 counter sel), (mkBox (CompositionNode.skillNode sa) 0 7 (counter + 1) sel)], [(createConnection (mkBox (CompositionNode.pipeNode [CompositionNode.skillNode sa, CompositionNode.skillNode sb]) 0 0 counter sel) (mkBox (CompositionNode.skillNode sa) 0 7 (counter + 1) sel))]⟩ : LayoutState) (CompositionNode.skillNode sb) 0 14 (some (mkBox (CompositionNode.pipeNode [CompositionNode.skillNode sa, CompositionNode.skillNode sb]) 0 0 counter sel).id) sel = ((⟨counter + 3, [(mkBox (CompositionNode.pipeNode [CompositionNode.skillNode sa, CompositionNode.skillNode sb]) 0 0 counter sel), (mkBox (CompositionNode.skillNode sa) 0 7 (counter + 1) sel), (mkBox (CompositionNode.skillNode sb) 0 14 (counter + 2) sel)], [(createConnection (mkBox (CompositionNode.pipeNode [CompositionNode.skillNode sa, CompositionNode.skillNode sb]) 0 0 counter sel) (mkBox (CompositionNode.skillNode sa) 0 7 (counter + 1) sel)), (createConnection (mkBox (CompositionNode.pipeNode [CompositionNode.skillNode sa, CompositionNode.skillNode sb]) 0 0 counter sel) (mkBox (CompositionNode.skillNode sb) 0 14 (counter + 2) sel))]⟩ : LayoutState), (mkBox (CompositionNode.skillNode sb) 0 14 (counter + 2) sel)) := by
    unfold pushNode
    dsimp only
    rw [hfindB]
    rfl
  have hB : (layoutNode (CompositionNode.skillNode sb) 0 14 (some (mkBox (CompositionNode.pipeNode [CompositionNode.skillNode sa, CompositionNode.skillNode sb]) 0 0 counter sel).id) sel (⟨counter + 2, [(mkBox (CompositionNode.pipeNode [CompositionNode.skillNode sa, CompositionNode.skillNode sb]) 0 0 counter sel), (mkBox (CompositionNode.skillNode sa) 0 7 (counter + 1) sel)], [(createConnection (mkBox (CompositionNode.pipeNode [CompositionNode.skillNode sa, CompositionNode.skillNode sb]) 0 0 counter sel) (mkBox (CompositionNode.skillNode sa) 0 7 (counter + 1) sel))]⟩ : LayoutState)) = ⟨(⟨counter + 3, [(mkBox (CompositionNode.pipeNode [CompositionNode.skillNode sa, CompositionNode.skillNode sb]) 0 0 counter sel), (mkBox (CompositionNode.skillNode sa) 0 7 (counter + 1) sel), (mkBox (CompositionNode.skillNode sb) 0 14 (counter + 2) sel)], [(createConnection (mkBox (CompositionNode.pipeNode [CompositionNode.skillNode sa, CompositionNode.skillNode sb]) 0 0 counter sel) (mkBox (CompositionNode.skillNode sa) 0 7 (counter + 1) sel)), (createConnection (mkBox (CompositionNode.pipeNode [CompositionNode.skillNode sa, CompositionNode.skillNode sb]) 0 0 counter sel) (mkBox (CompositionNode.skillNode sb) 0 14 (counter + 2) sel))]⟩ : LayoutState), (mkBox (CompositionNode.skillNode sb) 0 14 (counter + 2) sel), NODE_WIDTH, NODE_HEIGHT⟩ := by
    show (⟨(pushNode (⟨counter + 2, [(mkBox (CompositionNode.pipeNode [CompositionNode.skillNode sa, CompositionNode.skillNode sb]) 0 0 counter sel), (mkBox (CompositionNode.skillNode sa) 0 7 (counter + 1) sel)], [(createConnection (mkBox (CompositionNode.pipeNode [CompositionNode.skillNode sa, CompositionNode.skillNode sb]) 0 0 counter sel) (mkBox (CompositionNode.skillNode sa) 0 7 (counter + 1) sel))]⟩ : LayoutState) (CompositionNode.skillNode sb) 0 14 (some (mkBox (CompositionNode.pipeNode [CompositionNode.skillNode sa, CompositionNode.skillNode sb]) 0 0 counter sel).id) sel).1,
           (pushNode (⟨counter + 2, [(mkBox (CompositionNode.pipeNode [CompositionNode.skillNode sa, CompositionNode.skillNode sb]) 0 0 counter sel), (mkBox (CompositionNode.skillNode sa) 0 7 (counter + 1) sel)], [(createConnection (mkBox (CompositionNode.pipeNode [CompositionNode.skillNode sa, CompositionNode.skillNode sb]) 0 0 counter sel) (mkBox (CompositionNode.skillNode sa) 0 7 (counter + 1) sel))]⟩ : LayoutState) (CompositionNode.skillNode sb) 0 14 (some (mkBox (CompositionNode.pipeNode [CompositionNode.skillNode sa, CompositionNode.skillNode sb]) 0 0 counter sel).id) sel).2,
           NODE_WIDTH, NODE_HEIGHT⟩ : LayoutResult) = _
    rw [hpushB]
  have step1 : (layoutPipeChildren [CompositionNode.skillNode sa, CompositionNode.skillNode sb] 0 7 (mkBox (CompositionNode.pipeNode [CompositionNode.skillNode sa, CompositionNode.skillNode sb]) 0 0 counter sel).id sel (⟨counter + 1, [(mkBox (CompositionNode.pipeNode [CompositionNode.skillNode sa, CompositionNode.skillNode sb]) 0 0 counter sel)], []⟩ : LayoutState) NODE_WIDTH NODE_HEIGHT)
      = layoutPipeChildren [CompositionNode.skillNode sb] 0
          (7 + (layoutNode (CompositionNode.skillNode sa) 0 7 (some (mkBox (CompositionNode.pipeNode [CompositionNode.skillNode sa, CompositionNode.skillNode sb]) 0 0 counter sel).id) sel (⟨counter + 1, [(mkBox (CompositionNode.pipeNode [CompositionNode.skillNode sa, CompositionNode.skillNode sb]) 0 0 counter sel)], []⟩ : LayoutState)).height + V_SPACING) (mkBox (CompositionNode.pipeNode [CompositionNode.skillNode sa, CompositionNode.skillNode sb]) 0 0 counter sel).id sel (layoutNode (CompositionNode.skillNode sa) 0 7 (some (mkBox (CompositionNode.pipeNode [CompositionNode.skillNode sa, CompositionNode.skillNode sb]) 0 0 counter sel).id) sel (⟨counter + 1, [(mkBox (CompositionNode.pipeNode [CompositionNode.skillNode sa, CompositionNode.skillNode sb]) 0 0 counter sel)], []⟩ : LayoutState)).st
          (max NODE_WIDTH (layoutNode (CompositionNode.skillNode sa) 0 7 (some (mkBox (CompositionNode.pipeNode [CompositionNode.skillNode sa, CompositionNode.skillNode sb]) 0 0 counter sel).id) sel (⟨counter + 1, [(mkBox (CompositionNode.pipeNode [CompositionNode.skillNode sa, CompositionNode.skillNode sb]) 0 0 counter sel)], []⟩ : LayoutState)).width)
          (NODE_HEIGHT + (layoutNode (CompositionNode.skillNode sa) 0 7 (some (mkBox (CompositionNode.pipeNode [CompositionNode.skillNode sa, CompositionNode.skillNode sb]) 0 0 counter sel).id) sel (⟨counter + 1, [(mkBox (CompositionNode.pipeNode [CompositionNode.skillNode sa, CompositionNode.skillNode sb]) 0 0 counter sel)], []⟩ : LayoutState)).height + V_SPACING) := rfl
  have h14 : (7 : Int) + NODE_HEIGHT + V_SPACING = 14 := by
    simp only [NODE_HEIGHT, V_SPACING]
    norm_num
  have step2 : layoutPipeChildren [CompositionNode.skillNode sb] 0 14 (mkBox (CompositionNode.pipeNode [CompositionNode.skillNode sa, CompositionNode.skillNode sb]) 0 0 counter sel).id sel (⟨counter + 2, [(mkBox (CompositionNode.pipeNode [CompositionNode.skillNode sa, CompositionNode.skillNode sb]) 0 0 counter sel), (mkBox (CompositionNode.skillNode sa) 0 7 (counter + 1) sel)], [(createConnection (mkBox (CompositionNode.pipeNode [CompositionNode.skillNode sa, CompositionNode.skillNode sb]) 0 0 counter sel) (mkBox (CompositionNode.skillNode sa) 0 7 (counter + 1) sel))]⟩ : LayoutState)
      (max NODE_WIDTH NODE_WIDTH) (NODE_HEIGHT + NODE_HEIGHT + V_SPACING)
      = layoutPipeChildren [] 0 (14 + (layoutNode (CompositionNode.skillNode sb) 0 14 (some (mkBox (CompositionNode.pipeNode [CompositionNode.skillNode sa, CompositionNode.skillNode sb]) 0 0 counter sel).id) sel (⟨counter + 2, [(mkBox (CompositionNode.pipeNode [CompositionNode.skillNode sa, CompositionNode.skillNode sb]) 0 0 counter sel), (mkBox (CompositionNode.skillNode sa) 0 7 (counter + 1) sel)], [(createConnection (mkBox (CompositionNode.pipeNode [CompositionNode.skillNode sa, CompositionNode.skillNode sb]) 0 0 counter sel) (mkBox (CompositionNode.skillNode sa) 0 7 (counter + 1) sel))]⟩ : LayoutState)).height + V_SPACING) (mkBox (CompositionNode.pipeNode [CompositionNode.skillNode sa, CompositionNode.skillNode sb]) 0 0 counter sel).id sel (layoutNode (CompositionNode.skillNode sb) 0 14 (some (mkBox (CompositionNode.pipeNode [CompositionNode.skillNode sa, CompositionNode.skillNode sb]) 0 0 counter sel).id) sel (⟨counter + 2, [(mkBox (CompositionNode.pipeNode [CompositionNode.skillNode sa, CompositionNode.skillNode sb]) 0 0 counter sel), (mkBox (CompositionNode.skillNode sa) 0 7 (counter + 1) sel)], [(createConnection (mkBox (CompositionNode.pipeNode [CompositionNode.skillNode sa, CompositionNode.skillNode sb]) 0 0 counter sel) (mkBox (CompositionNode.skillNode sa) 0 7 (counter + 1) sel))]⟩ : LayoutState)).st
          (max (max NODE_WIDTH NODE_WIDTH) (layoutNode (CompositionNode.skillNode sb) 0 14 (some (mkBox (CompositionNode.pipeNode [CompositionNode.skillNode sa, CompositionNode.skillNode sb]) 0 0 counter sel).id) sel (⟨counter + 2, [(mkBox (CompositionNode.pipeNode [CompositionNode.skillNode sa, CompositionNode.skillNode sb]) 0 0 counter sel), (mkBox (CompositionNode.skillNode sa) 0 7 (counter + 1) sel)], [(createConnection (mkBox (CompositionNode.pipeNode [CompositionNode.skillNode sa, CompositionNode.skillNode sb]) 0 0 counter sel) (mkBox (CompositionNode.skillNode sa) 0 7 (counter + 1) sel))]⟩ : LayoutState)).width)
          (NODE_HEIGHT + NODE_HEIGHT + V_SPACING + (layoutNode (CompositionNode.skillNode sb) 0 14 (some (mkBox (CompositionNode.pipeNode [CompositionNode.skillNode sa, CompositionNode.skillNode sb]) 0 0 counter sel).id) sel (⟨counter + 2, [(mkBox (CompositionNode.pipeNode [CompositionNode.skillNode sa, CompositionNode.skillNode sb]) 0 0 counter sel), (mkBox (CompositionNode.skillNode sa) 0 7 (counter + 1) sel)], [(createConnection (mkBox (CompositionNode.pipeNode [CompositionNode.skillNode sa, CompositionNode.skillNode sb]) 0 0 counter sel) (mkBox (CompositionNode.skillNode sa) 0 7 (counter + 1) sel))]⟩ : LayoutState)).height + V_SPACING) := rfl
  have hloop : (layoutPipeChildren [CompositionNode.skillNode sa, CompositionNode.skillNode sb] 0 7 (mkBox (CompositionNode.pipeNode [CompositionNode.skillNode sa, CompositionNode.skillNode sb]) 0 0 counter sel).id sel (⟨counter + 1, [(mkBox (CompositionNode.pipeNode [CompositionNode.skillNode sa, CompositionNode.skillNode sb]) 0 0 counter sel)], []⟩ : LayoutState) NODE_WIDTH NODE_HEIGHT) = ((⟨counter + 3, [(mkBox (CompositionNode.pipeNode [CompositionNode.skillNode sa, CompositionNode.skillNode sb]) 0 0 counter sel), (mkBox (CompositionNode.skillNode sa) 0 7 (counter + 1) sel), (mkBox (CompositionNode.skillNode sb) 0 14 (counter + 2) sel)], [(createConnection (mkBox (CompositionNode.pipeNode [CompositionNode.skillNode sa, CompositionNode.skillNode sb]) 0 0 counter sel) (mkBox (CompositionNode.skillNode sa) 0 7 (counter + 1) sel)), (createConnection (mkBox (CompositionNode.pipeNode [CompositionNode.skillNode sa, CompositionNode.skillNode sb]) 0 0 counter sel) (mkBox (CompositionNode.skillNode sb) 0 14 (counter + 2) sel))]⟩ : LayoutState), 24, 19) := by
    rw [step1, hA]
    dsimp only
    rw [h14, step2, hB]
    dsimp only
    show ((⟨counter + 3, [(mkBox (CompositionNode.pipeNode [CompositionNode.skillNode sa, CompositionNode.skillNode sb]) 0 0 counter sel), (mkBox (CompositionNode.skillNode sa) 0 7 (counter + 1) sel), (mkBox (CompositionNode.skillNode sb) 0 14 (counter + 2) sel)], [(createConnection (mkBox (CompositionNode.pipeNode [CompositionNode.skillNode sa, CompositionNode.skillNode sb]) 0 0 counter sel) (mkBox (CompositionNode.skillNode sa) 0 7 (counter + 1) sel)), (createConnection (mkBox (CompositionNode.pipeNode [CompositionNode.skillNode sa, CompositionNode.skillNode sb]) 0 0 counter sel) (mkBox (CompositionNode.skillNode sb) 0 14 (counter + 2) sel))]⟩ : LayoutState), max (max NODE_WIDTH NODE_WIDTH) NODE_WIDTH,
      NODE_HEIGHT + NODE_HEIGHT + V_SPACING + NODE_HEIGHT + V_SPACING) = _
    simp only [NODE_WIDTH, NODE_HEIGHT, V_SPACING]
    norm_num
  have hu : layoutNode (CompositionNode.pipeNode [CompositionNode.skillNode sa, CompositionNode.skillNode sb]) 0 0 none sel (⟨counter, [], []⟩ : LayoutState)
      = ⟨(layoutPipeChildren [CompositionNode.skillNode sa, CompositionNode.skillNode sb] 0
            (0 + NODE_HEIGHT + V_SPACING) (pushNode (⟨counter, [], []⟩ : LayoutState) (CompositionNode.pipeNode [CompositionNode.skillNode sa, CompositionNode.skillNode sb]) 0 0 none sel).2.id sel (pushNode (⟨counter, [], []⟩ : LayoutState) (CompositionNode.pipeNode [CompositionNode.skillNode sa, CompositionNode.skillNode sb]) 0 0 none sel).1 NODE_WIDTH NODE_HEIGHT).1,
         (pushNode (⟨counter, [], []⟩ : LayoutState) (CompositionNode.pipeNode [CompositionNode.skillNode sa, CompositionNode.skillNode sb]) 0 0 none sel).2,
         (layoutPipeChildren [CompositionNode.skillNode sa, CompositionNode.skillNode sb] 0
            (0 + NODE_HEIGHT + V_SPACING) (pushNode (⟨counter, [], []⟩ : LayoutState) (CompositionNode.pipeNode [CompositionNode.skillNode sa, CompositionNode.skillNode sb]) 0 0 none sel).2.id sel (pushNode (⟨counter, [], []⟩ : LayoutState) (CompositionNode.pipeNode [CompositionNode.skillNode sa, CompositionNode.skillNode sb]) 0 0 none sel).1 NODE_WIDTH NODE_HEIGHT).2.1,
         (layoutPipeChildren [CompositionNode.skillNode sa, CompositionNode.skillNode sb] 0
            (0 + NODE_HEIGHT + V_SPACING) (pushNode (⟨counter, [], []⟩ : LayoutState) (CompositionNode.pipeNode [CompositionNode.skillNode sa, CompositionNode.skillNode sb]) 0 0 none sel).2.id sel (pushNode (⟨counter, [], []⟩ : LayoutState) (CompositionNode.pipeNode [CompositionNode.skillNode sa, CompositionNode.skillNode sb]) 0 0 none sel).1 NODE_WIDTH NODE_HEIGHT).2.2⟩ := rfl
  have h7 : (0 : Int) + NODE_HEIGHT + V_SPACING = 7 := by
    simp only [NODE_HEIGHT, V_SPACING]
    norm_num
  show RenderedGraph.mk (layoutNode (CompositionNode.pipeNode [CompositionNode.skillNode sa, CompositionNode.skillNode sb]) 0 0 none sel (⟨counter, [], []⟩ : LayoutState)).st.nodes
      (layoutNode (CompositionNode.pipeNode [CompositionNode.skillNode sa, CompositionNode.skillNode sb]) 0 0 none sel (⟨counter, [], []⟩ : LayoutState)).st.connections
      (layoutNode (CompositionNode.pipeNode [CompositionNode.skillNode sa, CompositionNode.skillNode sb]) 0 0 none sel (⟨counter, [], []⟩ : LayoutState)).width
      (layoutNode (CompositionNode.pipeNode [CompositionNode.skillNode sa, CompositionNode.skillNode sb]) 0 0 none sel (⟨counter, [], []⟩ : LayoutState)).height = _
  rw [hu, hpush0]
  dsimp only
  rw [h7, hloop]


/-- Claim C3, amended: in the layout of sequence(A,B) over leaves A and B,
B's box lies strictly below A's box (B.y > A.y + A.height); the connector
list contains exactly two connectors — sequence→A and sequence→B, both from
the sequence node's own box, none from A to B — and each connector is purely
vertical: every point sits at the shared x-center 12 and is a '│' cell or
the terminal '▼' arrow, with no horizontal segment or corner glyphs (A and B
share the parent's x and the fixed box width). -/
theorem layout_sequence_amended (sa sb : Skill) (sel : Option String)
    (counter : Nat) :
    ((layoutComposition (some (CompositionNode.pipeNode [CompositionNode.skillNode sa, CompositionNode.skillNode sb])) sel counter).nodes.map (fun n => (n.x, n.y, n.width, n.height)))
      = [(0, 0, 24, 5), (0, 7, 24, 5), (0, 14, 24, 5)] ∧
    ((layoutComposition (some (CompositionNode.pipeNode [CompositionNode.skillNode sa, CompositionNode.skillNode sb])) sel counter).nodes.getD 1 (mkBox leafAlpha 0 0 0 none)).y + ((layoutComposition (some (CompositionNode.pipeNode [CompositionNode.skillNode sa, CompositionNode.skillNode sb])) sel counter).nodes.getD 1 (mkBox leafAlpha 0 0 0 none)).height
      < ((layoutComposition (some (CompositionNode.pipeNode [CompositionNode.skillNode sa, CompositionNode.skillNode sb])) sel counter).nodes.getD 2 (mkBox leafAlpha 0 0 0 none)).y ∧
    (layoutComposition (some (CompositionNode.pipeNode [CompositionNode.skillNode sa, CompositionNode.skillNode sb])) sel counter).connections.length = 2 ∧
    ((layoutComposition (some (CompositionNode.pipeNode [CompositionNode.skillNode sa, CompositionNode.skillNode sb])) sel counter).connections.map (fun c => (c.fromId, c.toId)))
      = [("node-" ++ toString (counter + 1), "node-" ++ toString (counter + 2)),
         ("node-" ++ toString (counter + 1), "node-" ++ toString (counter + 3))] ∧
    ((layoutComposition (some (CompositionNode.pipeNode [CompositionNode.skillNode sa, CompositionNode.skillNode sb])) sel counter).connections.map (fun c => c.points.map (fun p => (p.x, p.y, p.char))))
      = [[(12, 5, '│'), (12, 6, '│'), (12, 6, '▼')],
         [(12, 5, '│'), (12, 6, '│'), (12, 7, '│'), (12, 8, '│'), (12, 9, '│'),
          (12, 10, '│'), (12, 11, '│'), (12, 12, '│'), (12, 13, '│'), (12, 13, '▼')]] := by
  rw [layout_sequence_two_leaves]
  refine ⟨rfl, ?_, rfl, rfl, rfl⟩
  show (7 : Int) + 5 < 14
  norm_num

end Skillixer
